import Mathlib

/-!
# IEEE 802.15.4e Information Elements: creation and parsing

A shallow embedding of `core/net/mac/tsch/frame802154e.c`.

* A buffer is a `List Nat` of bytes; a C pointer into it is the list together
  with an index.  A read through the pointer is `rd`, which fails (`none`)
  outside the list: in C that read is undefined behaviour, and the walker
  reports it as the outcome `Outcome.oob`.
* Machine integers are `Nat`/`Int` with the C conversions made explicit
  (`to_u8`, `to_u16`, `to_i16`, `int_bits`).
* A write `buf[k] = v` is `List.set`, which leaves a list that is too short
  as it is; the statements about the encoders take a buffer object that has
  the capacity the encoder is told.
* The `while` loop of the walker is `loop_body` (one iteration) iterated by
  `parse_loop`; `parse_information_elements_ends` shows that the iteration
  budget of the definition is never exhausted.
-/

namespace Frame802154e

/-! ## Machine integers -/

/-- Value kept by a `uint8_t` when an integer is assigned to it. -/
def to_u8 (x : Int) : Nat := (x % 256).toNat

/-- Value kept by a `uint16_t` when an integer is assigned to it. -/
def to_u16 (x : Int) : Nat := (x % 65536).toNat

/-- Value kept by an `int16_t` when an integer is assigned to it
(two's complement wrap-around). -/
def to_i16 (x : Int) : Int := (x + 32768) % 65536 - 32768

/-- Two's complement bit pattern of a signed `int` operand of a bitwise
operator.  Every mask used in the source is below `2 ^ 16`, so the result of
the masking is the same for 16-bit and 32-bit `int`. -/
def int_bits (x : Int) : Nat := (x % 4294967296).toNat

/-! ## Data model -/

/-- Absolute slot number: 32 low bits and 8 high bits (`struct asn_t`). -/
structure asn_t where
  ls4b : Nat
  ms1b : Nat
deriving DecidableEq

/-- Modelled from the spec: `struct ieee802154_ies` is declared in
`frame802154e.h`, which is not among the sources; the fields are the ones the
code accesses, with the widths of section 3 of the specification
(`ie_time_correction` signed 16-bit, `ie_is_nack`, `ie_join_priority`,
`ie_tsch_timeslot_id`, `ie_channel_hopping_sequence_id` unsigned 8-bit,
`ie_mlme_len` an unsigned length). -/
structure ieee802154_ies where
  ie_time_correction : Int
  ie_is_nack : Nat
  ie_mlme_len : Nat
  ie_asn : asn_t
  ie_join_priority : Nat
  ie_tsch_timeslot_id : Nat
  ie_channel_hopping_sequence_id : Nat
deriving DecidableEq

/-! ## Identifiers (IEEE 802.15.4e tables 4b to 4e) -/

def HEADER_IE_ACK_NACK_TIME_CORRECTION : Nat := 0x1e
def HEADER_IE_LIST_TERMINATION_1 : Nat := 0x7e
def HEADER_IE_LIST_TERMINATION_2 : Nat := 0x7f
def PAYLOAD_IE_MLME : Nat := 1
def PAYLOAD_IE_TSCH_SYNCHRONIZATION : Nat := 0x1a
def PAYLOAD_IE_TSCH_TIMESLOT : Nat := 0x1c
def PAYLOAD_IE_TSCH_CHANNEL_HOPPING_SEQUENCE : Nat := 0x9

/-! ## Descriptor packers

`buf` is the buffer object and `p` the index the C pointer designates;
`buf[k] = v` is `List.set buf (p + k) v`. -/

/-- Create a header IE 2-byte descriptor. -/
def create_header_ie_descriptor (buf : List Nat) (p : Nat) (element_id : Nat)
    (ie_len : Int) : List Nat :=
  let ie_desc := to_u16 (((int_bits ie_len &&& 0x7f) + ((element_id &&& 0xff) <<< 7) : Nat) : Int)
  let buf := buf.set p (ie_desc &&& 0xff)
  buf.set (p + 1) ((ie_desc >>> 8) &&& 0xff)

/-- Create a payload IE 2-byte descriptor. -/
def create_payload_ie_descriptor (buf : List Nat) (p : Nat) (group_id : Nat)
    (ie_len : Int) : List Nat :=
  let ie_desc := to_u16 (((int_bits ie_len &&& 0x07ff) + ((group_id &&& 0x0f) <<< 11)
    + (1 <<< 15) : Nat) : Int)
  let buf := buf.set p (ie_desc &&& 0xff)
  buf.set (p + 1) ((ie_desc >>> 8) &&& 0xff)

/-- Create a MLME short IE 2-byte descriptor. -/
def create_mlme_short_ie_descriptor (buf : List Nat) (p : Nat) (sub_id : Nat)
    (ie_len : Int) : List Nat :=
  let ie_desc := to_u16 (((int_bits ie_len &&& 0xff) + ((sub_id &&& 0x7f) <<< 8) : Nat) : Int)
  let buf := buf.set p (ie_desc &&& 0xff)
  buf.set (p + 1) ((ie_desc >>> 8) &&& 0xff)

/-- Create a MLME long IE 2-byte descriptor. -/
def create_mlme_long_ie_descriptor (buf : List Nat) (p : Nat) (sub_id : Nat)
    (ie_len : Int) : List Nat :=
  let ie_desc := to_u16 (((int_bits ie_len &&& 0x07ff) + ((sub_id &&& 0x0f) <<< 11)
    + (1 <<< 15) : Nat) : Int)
  let buf := buf.set p (ie_desc &&& 0xff)
  buf.set (p + 1) ((ie_desc >>> 8) &&& 0xff)

/-! ## Encoders

Each encoder returns the C return value and the buffer after the call. -/

/-- Header IE. ACK/NACK time correction. -/
def frame80215e_create_ie_ack_nack_time_correction (buf : List Nat) (p : Nat) (len : Int)
    (ies : Option ieee802154_ies) : Int × List Nat :=
  let ie_len : Int := 2
  if len ≥ 2 + ie_len then
    match ies with
    | some r =>
      let drift_us : Int := r.ie_time_correction
      let time_sync_field := to_u16 ((int_bits drift_us &&& 0x0fff : Nat) : Int)
      let time_sync_field :=
        if r.ie_is_nack ≠ 0 then to_u16 ((time_sync_field ||| 0x8000 : Nat) : Int)
        else time_sync_field
      let buf := buf.set (p + 2) (time_sync_field &&& 0xff)
      let buf := buf.set (p + 3) ((time_sync_field >>> 8) &&& 0xff)
      (2 + ie_len,
        create_header_ie_descriptor buf p HEADER_IE_ACK_NACK_TIME_CORRECTION ie_len)
    | none => (-1, buf)
  else (-1, buf)

/-- Payload IE. MLME. Used to nest sub-IEs. -/
def frame80215e_create_ie_mlme (buf : List Nat) (p : Nat) (len : Int)
    (ies : Option ieee802154_ies) : Int × List Nat :=
  let ie_len : Int := 0
  if len ≥ 2 + ie_len then
    match ies with
    | some r =>
      (2 + ie_len, create_payload_ie_descriptor buf p PAYLOAD_IE_MLME (r.ie_mlme_len : Int))
    | none => (-1, buf)
  else (-1, buf)

/-- MLME sub-IE. TSCH synchronization: ASN and join priority. -/
def frame80215e_create_ie_tsch_synchronization (buf : List Nat) (p : Nat) (len : Int)
    (ies : Option ieee802154_ies) : Int × List Nat :=
  let ie_len : Int := 6
  if len ≥ 2 + ie_len then
    match ies with
    | some r =>
      let buf := buf.set (p + 2) (to_u8 (r.ie_asn.ls4b : Int))
      let buf := buf.set (p + 3) (to_u8 ((r.ie_asn.ls4b >>> 8 : Nat) : Int))
      let buf := buf.set (p + 4) (to_u8 ((r.ie_asn.ls4b >>> 16 : Nat) : Int))
      let buf := buf.set (p + 5) (to_u8 ((r.ie_asn.ls4b >>> 24 : Nat) : Int))
      let buf := buf.set (p + 6) (to_u8 (r.ie_asn.ms1b : Int))
      let buf := buf.set (p + 7) (to_u8 (r.ie_join_priority : Int))
      (2 + ie_len,
        create_mlme_short_ie_descriptor buf p PAYLOAD_IE_TSCH_SYNCHRONIZATION ie_len)
    | none => (-1, buf)
  else (-1, buf)

/-- MLME sub-IE. TSCH slotframe and link (a stub in the source). -/
def frame80215e_create_ie_tsch_slotframe_and_link (buf : List Nat) (_p : Nat) (_len : Int)
    (_ies : Option ieee802154_ies) : Int × List Nat :=
  (-1, buf)

/-- MLME sub-IE. TSCH timeslot: timeslot template id. -/
def frame80215e_create_ie_tsch_timeslot (buf : List Nat) (p : Nat) (len : Int)
    (ies : Option ieee802154_ies) : Int × List Nat :=
  let ie_len : Int := 1
  if len ≥ 2 + ie_len then
    match ies with
    | some r =>
      let buf := buf.set (p + 2) (to_u8 (r.ie_tsch_timeslot_id : Int))
      (2 + ie_len, create_mlme_short_ie_descriptor buf p PAYLOAD_IE_TSCH_TIMESLOT ie_len)
    | none => (-1, buf)
  else (-1, buf)

/-- MLME sub-IE. TSCH channel hopping sequence. -/
def frame80215e_create_ie_tsch_channel_hopping_sequence (buf : List Nat) (p : Nat)
    (len : Int) (ies : Option ieee802154_ies) : Int × List Nat :=
  let ie_len : Int := 1
  if len ≥ 2 + ie_len then
    match ies with
    | some r =>
      let buf := buf.set (p + 2) (to_u8 (r.ie_channel_hopping_sequence_id : Int))
      (2 + ie_len,
        create_mlme_long_ie_descriptor buf p PAYLOAD_IE_TSCH_CHANNEL_HOPPING_SEQUENCE ie_len)
    | none => (-1, buf)
  else (-1, buf)

/-! ## Parsers

A parser returns `none` when it reads outside the buffer object, otherwise
its C return value and the record after the call (`none` for a NULL `ies`). -/

/-- Read of the `uint8_t` at index `i`; `none` outside the buffer object. -/
def rd (buf : List Nat) (i : Nat) : Option Nat := (buf[i]?).map (fun b => b % 256)

/-- Parse a header IE. -/
def frame802154e_parse_header_ie (buf : List Nat) (p : Nat) (len : Int) (element_id : Nat)
    (ies : Option ieee802154_ies) : Option (Int × Option ieee802154_ies) :=
  if element_id = HEADER_IE_ACK_NACK_TIME_CORRECTION then
    if len = 2 then
      match ies with
      | some r =>
        match rd buf p, rd buf (p + 1) with
        | some b0, some b1 =>
          let time_sync_field := to_u16 ((b0 ||| (b1 <<< 8) : Nat) : Int)
          let is_nack := if time_sync_field &&& 0x8000 ≠ 0 then 1 else 0
          let drift_us : Int :=
            if time_sync_field &&& 0x0800 ≠ 0 then
              to_i16 ((time_sync_field ||| 0xf000 : Nat) : Int)
            else
              to_i16 ((time_sync_field &&& 0x0fff : Nat) : Int)
          some (len, some { r with ie_is_nack := is_nack, ie_time_correction := drift_us })
        | _, _ => none
      | none => some (len, none)
    else some (len, ies)
  else some (len, ies)

/-- Parse a MLME short IE. -/
def frame802154e_parse_mlme_short_ie (buf : List Nat) (p : Nat) (len : Int) (sub_id : Nat)
    (ies : Option ieee802154_ies) : Option (Int × Option ieee802154_ies) :=
  if sub_id = PAYLOAD_IE_TSCH_SYNCHRONIZATION then
    if len = 6 then
      match ies with
      | some r =>
        match rd buf p, rd buf (p + 1), rd buf (p + 2), rd buf (p + 3), rd buf (p + 4),
            rd buf (p + 5) with
        | some b0, some b1, some b2, some b3, some b4, some b5 =>
          let ls4b := b0
          let ls4b := ls4b ||| ((b1 <<< 8) % 4294967296)
          let ls4b := ls4b ||| ((b2 <<< 16) % 4294967296)
          let ls4b := ls4b ||| ((b3 <<< 24) % 4294967296)
          some (len, some { r with ie_asn := ⟨ls4b, to_u8 (b4 : Int)⟩,
                                   ie_join_priority := to_u8 (b5 : Int) })
        | _, _, _, _, _, _ => none
      | none => some (len, none)
    else some (len, ies)
  else if sub_id = PAYLOAD_IE_TSCH_TIMESLOT then
    if len = 1 then
      match ies with
      | some r =>
        match rd buf p with
        | some b0 => some (len, some { r with ie_tsch_timeslot_id := b0 })
        | none => none
      | none => some (len, none)
    else some (len, ies)
  else some (len, ies)

/-- Parse a MLME long IE. -/
def frame802154e_parse_mlme_long_ie (buf : List Nat) (p : Nat) (len : Int) (sub_id : Nat)
    (ies : Option ieee802154_ies) : Option (Int × Option ieee802154_ies) :=
  if sub_id = PAYLOAD_IE_TSCH_CHANNEL_HOPPING_SEQUENCE then
    if len = 1 then
      match ies with
      | some r =>
        match rd buf p with
        | some b0 => some (len, some { r with ie_channel_hopping_sequence_id := b0 })
        | none => none
      | none => some (len, none)
    else some (len, ies)
  else some (len, ies)

/-! ## The walker -/

/-- Result of a call of the walker: the value returned with the record after
the call, a read outside the buffer object, or an exhausted iteration
budget. -/
inductive Outcome where
  | ret (v : Int) (ies : Option ieee802154_ies)
  | oob
  | nofuel
deriving DecidableEq

/-- Local variables of the walker at the head of the loop: `pos` is
`buf - start`. -/
structure walk_state where
  pos : Nat
  buf_size : Nat
  in_nested_mlme : Int
  ies : Option ieee802154_ies
deriving DecidableEq

/-- What one iteration of the loop does: go round again or leave the
function. -/
inductive step_result where
  | next (s : walk_state)
  | done (o : Outcome)
deriving DecidableEq

/-- The two statements that end an iteration: `buf += len; buf_size -= len;`. -/
def advance (pos buf_size len : Nat) (in_nested_mlme : Int)
    (ies : Option ieee802154_ies) : step_result :=
  .next ⟨pos + len, to_u8 ((buf_size : Int) - (len : Int)), in_nested_mlme, ies⟩

/-- One iteration of the loop of `frame802154e_parse_information_elements`,
entered with `buf_size > 0`. -/
def loop_body (buf : List Nat) (s : walk_state) : step_result :=
  if s.buf_size < 2 then .done (.ret (-1) s.ies)
  else
    match rd buf (s.pos + 1), rd buf s.pos with
    | some b1, some b0 =>
      let ie_desc := to_u16 (((b1 <<< 8) + b0 : Nat) : Int)
      let buf_size := to_u8 ((s.buf_size : Int) - 2)
      let pos := s.pos + 2
      let type := if ie_desc &&& 0x8000 ≠ 0 then 1 else 0
      if s.in_nested_mlme = 0 then
        if type = 0 then
          let len := to_u16 ((ie_desc &&& 0x007f : Nat) : Int)
          let id := to_u8 (((ie_desc &&& 0x7f80) >>> 7 : Nat) : Int)
          if len > buf_size then .done (.ret (-1) s.ies)
          else
            match frame802154e_parse_header_ie buf pos (len : Int) id s.ies with
            | none => .done .oob
            | some (r, ies) =>
              if r = 0 then .done (.ret (-1) ies)
              else if id = HEADER_IE_LIST_TERMINATION_2 then
                .done (.ret ((pos : Int) + (len : Int)) ies)
              else advance pos buf_size len s.in_nested_mlme ies
        else
          let len := to_u16 ((ie_desc &&& 0x7ff : Nat) : Int)
          let id := to_u8 (((ie_desc &&& 0x7800) >>> 11 : Nat) : Int)
          if id = 1 then advance pos buf_size 0 (len : Int) s.ies
          else advance pos buf_size len s.in_nested_mlme s.ies
      else
        if type = 0 then
          let len := to_u16 ((ie_desc &&& 0x00ff : Nat) : Int)
          let id := to_u8 (((ie_desc &&& 0x7f00) >>> 8 : Nat) : Int)
          if len > buf_size then .done (.ret (-1) s.ies)
          else
            match frame802154e_parse_mlme_short_ie buf pos (len : Int) id s.ies with
            | none => .done .oob
            | some (r, ies) =>
              if r = 0 then .done (.ret (-1) ies)
              else
                let in_nested_mlme := s.in_nested_mlme - (2 + (len : Int))
                if in_nested_mlme < 0 then .done (.ret (-1) ies)
                else if in_nested_mlme = 0 then .done (.ret ((pos : Int) + (len : Int)) ies)
                else advance pos buf_size len in_nested_mlme ies
        else
          let len := to_u16 ((ie_desc &&& 0x7ff : Nat) : Int)
          let id := to_u8 (((ie_desc &&& 0x7800) >>> 11 : Nat) : Int)
          if len > buf_size then .done (.ret (-1) s.ies)
          else
            match frame802154e_parse_mlme_long_ie buf pos (len : Int) id s.ies with
            | none => .done .oob
            | some (r, ies) =>
              if r = 0 then .done (.ret (-1) ies)
              else
                let in_nested_mlme := s.in_nested_mlme - (2 + (len : Int))
                if in_nested_mlme < 0 then .done (.ret (-1) ies)
                else if in_nested_mlme = 0 then .done (.ret ((pos : Int) + (len : Int)) ies)
                else advance pos buf_size len in_nested_mlme ies
    | _, _ => .done .oob

/-- The loop `while(buf_size > 0) { ... } return buf - start;` run for at most
`fuel` iterations. -/
def parse_loop : Nat → List Nat → walk_state → Outcome
  | 0, _, _ => .nofuel
  | fuel + 1, buf, s =>
    if s.buf_size > 0 then
      match loop_body buf s with
      | .next s1 => parse_loop fuel buf s1
      | .done o => o
    else .ret (s.pos : Int) s.ies

/-- Parse all IEEE 802.15.4e Information Elements (IE) from a frame.  Every
iteration that goes round again has read two bytes inside the buffer object
and moved the pointer forward by at least two, so `buf.length + 1` iterations
always suffice. -/
def frame802154e_parse_information_elements (buf : List Nat) (buf_size : Nat)
    (ies : Option ieee802154_ies) : Outcome :=
  parse_loop (buf.length + 1) buf ⟨0, buf_size % 256, 0, ies⟩

/-! ## Vocabulary of the statements -/

/-- Arithmetic value of the field the time-correction encoder writes. -/
def ack_field (r : ieee802154_ies) : Nat :=
  (r.ie_time_correction % 4096).toNat + (if r.ie_is_nack = 0 then 0 else 32768)

/-- Value of a 12-bit two's complement field. -/
def sext12 (f : Nat) : Int :=
  if 2048 ≤ f % 4096 then ((f % 4096 : Nat) : Int) - 4096 else ((f % 4096 : Nat) : Int)

/-- The iteration entered in state `s` calls a per-IE parser on an IE that
this parser decodes: at the top level a header IE with element id 0x1e and
declared length 2, inside an MLME group a short sub-IE with sub id 0x1a and
declared length 6 or sub id 0x1c and declared length 1, or a long sub-IE with
sub id 0x9 and declared length 1, the declared length not exceeding the bytes
left after the descriptor. -/
def recognised_ie (buf : List Nat) (s : walk_state) : Bool :=
  match rd buf (s.pos + 1), rd buf s.pos with
  | some b1, some b0 =>
    if s.in_nested_mlme = 0 then
      decide (b1 < 128 ∧ (b0 + 256 * b1) / 128 % 256 = HEADER_IE_ACK_NACK_TIME_CORRECTION ∧
        b0 % 128 = 2 ∧ 2 ≤ s.buf_size - 2)
    else if b1 < 128 then
      decide (((b1 = PAYLOAD_IE_TSCH_SYNCHRONIZATION ∧ b0 = 6) ∨
        (b1 = PAYLOAD_IE_TSCH_TIMESLOT ∧ b0 = 1)) ∧ b0 ≤ s.buf_size - 2)
    else
      decide ((b0 + 256 * b1) / 2048 % 16 = PAYLOAD_IE_TSCH_CHANNEL_HOPPING_SEQUENCE ∧
        (b0 + 256 * b1) % 2048 = 1 ∧ 1 ≤ s.buf_size - 2)
  | _, _ => false

/-- Some iteration of the run of the walker from state `s` (at most `fuel`
iterations) meets a recognised IE. -/
def meets_recognised_ie : Nat → List Nat → walk_state → Bool
  | 0, _, _ => false
  | fuel + 1, buf, s =>
    if s.buf_size > 0 then
      recognised_ie buf s ||
        (match loop_body buf s with
         | .next s1 => meets_recognised_ie fuel buf s1
         | .done _ => false)
    else false

/-- What an iteration leaves of the record and of `buf_size`: the property
kept by an iteration that meets no recognised IE. -/
def keeps_record (s : walk_state) : step_result → Prop
  | .next s1 => s1.ies = s.ies ∧ s1.buf_size < 256
  | .done (.ret _ ies) => ies = s.ies
  | .done _ => True

/-- A sub-IE as it lies in a buffer: the two descriptor bytes and the
payload bytes. -/
structure sub_ie where
  d0 : Nat
  d1 : Nat
  payload : List Nat

/-- Declared length of a sub-IE as the walker extracts it: the low 8 bits of
the descriptor when the type bit is clear (short form), the low 11 bits when
it is set (long form). -/
def sub_ie.declared_len (e : sub_ie) : Nat :=
  if e.d1 < 128 then e.d0 else (e.d0 + 256 * e.d1) % 2048

/-- The descriptor is made of two bytes and the whole payload is present. -/
def sub_ie.complete (e : sub_ie) : Prop :=
  e.d0 < 256 ∧ e.d1 < 256 ∧ e.payload.length = e.declared_len

/-- Bytes of a sub-IE in the buffer. -/
def sub_ie.bytes (e : sub_ie) : List Nat := e.d0 :: e.d1 :: e.payload

/-- Size of a sub-IE: two descriptor bytes and the declared length. -/
def sub_ie.size (e : sub_ie) : Nat := 2 + e.declared_len

/-- Bytes of a sequence of sub-IEs. -/
def sub_ies_bytes : List sub_ie → List Nat
  | [] => []
  | e :: es => e.bytes ++ sub_ies_bytes es

/-- Sum of the sizes of a sequence of sub-IEs. -/
def sub_ies_size : List sub_ie → Nat
  | [] => 0
  | e :: es => e.size + sub_ies_size es

/-- The three ways an iteration can end: a return, a read outside the buffer
object, or a further iteration, entered at least two bytes further on after
two descriptor bytes read inside the buffer object. -/
def iteration_ends (buf : List Nat) (s : walk_state) : step_result → Prop
  | .next s1 => s.pos + 2 ≤ s1.pos ∧ s.pos + 1 < buf.length ∧ s1.buf_size < 256
  | .done (.ret _ _) => True
  | .done .oob => True
  | .done .nofuel => False

/-- The 16-bit descriptor the walker reads at index `p`:
`ie_desc = (buf[1] << 8) + buf[0]`. -/
def read_ie_desc (buf : List Nat) (p : Nat) : Option Nat :=
  match rd buf (p + 1), rd buf p with
  | some b1, some b0 => some (to_u16 (((b1 <<< 8) + b0 : Nat) : Int))
  | _, _ => none

/-- The buffer written by `frame80215e_create_ie_mlme` at index 0, then
`frame80215e_create_ie_tsch_timeslot` at index 2 and
`frame80215e_create_ie_tsch_channel_hopping_sequence` at index 5, each with
the capacity left of 8 bytes. -/
def timeslot_hopping_buffer (buf : List Nat) (r : ieee802154_ies) : List Nat :=
  (frame80215e_create_ie_tsch_channel_hopping_sequence
    (frame80215e_create_ie_tsch_timeslot
      (frame80215e_create_ie_mlme buf 0 8 (some r)).2 2 6 (some r)).2 5 3 (some r)).2

/-- A header IE or payload IE as it lies in a buffer: the two descriptor
bytes and the payload bytes. -/
structure top_ie where
  d0 : Nat
  d1 : Nat
  payload : List Nat

/-- Declared length of a top-level IE as the walker extracts it: the low 7
bits of the descriptor when the type bit is clear (header IE), the low 11
bits when it is set (payload IE). -/
def top_ie.declared_len (e : top_ie) : Nat :=
  if e.d1 < 128 then e.d0 % 128 else (e.d0 + 256 * e.d1) % 2048

/-- Element id (header IE) or group id (payload IE) as the walker extracts
it. -/
def top_ie.id (e : top_ie) : Nat :=
  if e.d1 < 128 then (e.d0 + 256 * e.d1) / 128 % 256 else (e.d0 + 256 * e.d1) / 2048 % 16

/-- A complete IE that neither ends the list nor opens an MLME group: a
header IE with an element id other than 0x7f and a declared length of at
least 1, or a payload IE with a group id other than 1, with the whole payload
present. -/
def top_ie.plain (e : top_ie) : Prop :=
  e.d0 < 256 ∧ e.d1 < 256 ∧ e.payload.length = e.declared_len ∧
  (e.d1 < 128 → e.id ≠ HEADER_IE_LIST_TERMINATION_2 ∧ 1 ≤ e.declared_len) ∧
  (128 ≤ e.d1 → e.id ≠ 1)

/-- Bytes of a top-level IE in the buffer. -/
def top_ie.bytes (e : top_ie) : List Nat := e.d0 :: e.d1 :: e.payload

/-- Size of a top-level IE: two descriptor bytes and the declared length. -/
def top_ie.size (e : top_ie) : Nat := 2 + e.declared_len

/-- Bytes of a sequence of top-level IEs. -/
def top_ies_bytes : List top_ie → List Nat
  | [] => []
  | e :: es => e.bytes ++ top_ies_bytes es

/-- Sum of the sizes of a sequence of top-level IEs. -/
def top_ies_size : List top_ie → Nat
  | [] => 0
  | e :: es => e.size + top_ies_size es

/-- An outcome with the record forgotten: what is left to compare between a
call with a record and a call with NULL. -/
def forget_record : Outcome → Outcome
  | .ret v _ => .ret v none
  | .oob => .oob
  | .nofuel => .nofuel

/-- The result of an iteration with the record forgotten. -/
def forget_record_step : step_result → step_result
  | .next s => .next ⟨s.pos, s.buf_size, s.in_nested_mlme, none⟩
  | .done o => .done (forget_record o)

end Frame802154e

/-! # Orchestra: sender-based unicast slotframe

A shallow embedding of the slot derivation and of the sweep of old links of
`examples/tsch-testbed/tools/orchestra-sf-sb-unicast.c`.  The link table, the
list of links and the allocator of the timestamps are external to the file;
the calls the code makes on them are returned as values of `schedule_call`. -/

namespace Orchestra

/-- Default of `ORCHESTRA_SBUNICAST_PERIOD` (`#ifndef` at the head of the
file). -/
def ORCHESTRA_SBUNICAST_PERIOD : Nat := 17

/-- The two slotframe handles of the file, `sf_sb` and `sf_sb2`. -/
inductive slotframe_handle where
  | sf_sb
  | sf_sb2
deriving DecidableEq

/-- Slot of a sender: the slotframe, the timeslot (a `uint8_t`) and the
channel offset (a `uint8_t`) written through the three pointers.
`period2_defined` says whether `ORCHESTRA_SBUNICAST_PERIOD2` is defined. -/
def orhcestra_get_sb_slot (period2_defined : Bool) (sender_index : Nat) :
    slotframe_handle × Nat × Nat :=
  if period2_defined then
    if sender_index < ORCHESTRA_SBUNICAST_PERIOD then
      (.sf_sb, Frame802154e.to_u8 (sender_index : Int), 2)
    else
      (.sf_sb2, Frame802154e.to_u8 ((sender_index : Int) - (ORCHESTRA_SBUNICAST_PERIOD : Int)), 3)
  else
    (.sf_sb, Frame802154e.to_u8 ((sender_index % ORCHESTRA_SBUNICAST_PERIOD : Nat) : Int), 2)

/-- Modelled from the spec: the macros `LINK_OPTION_TX`, `LINK_OPTION_RX`,
`LINK_OPTION_SHARED` and `DEDICATED_SLOT_LIFETIME`
(`TSCH_CLOCK_TO_SLOTS(2 * 60 * CLOCK_SECOND)`) expand to values of headers that
are not among the sources (section 3: option flags TX/RX/SHARED, section 4.5:
a fixed lease in slot counts); they are parameters of the model. -/
structure config where
  LINK_OPTION_TX : Nat
  LINK_OPTION_RX : Nat
  LINK_OPTION_SHARED : Nat
  DEDICATED_SLOT_LIFETIME : Nat

/-- Per-link metadata: ASN low parts of the last transmission and of the last
reception (`struct link_timestamps`, two `uint32_t`). -/
structure link_timestamps where
  last_tx : Nat
  last_rx : Nat
deriving DecidableEq

/-- Modelled from the spec: `struct tsch_link` is declared in
`tsch-schedule.h`, which is not among the sources; the fields are the ones the
code accesses (section 3: timeslot index, channel offset, address, option
flags, data pointer).  An address is a number, `linkaddr_null` being 0; `data`
is `none` for a NULL pointer. -/
structure tsch_link where
  link_options : Nat
  addr : Nat
  timeslot : Nat
  channel_offset : Nat
  data : Option link_timestamps
deriving DecidableEq

/-- The null link-layer address. -/
def linkaddr_null : Nat := 0

/-- The call that the body of the loop makes on the link table for one link:
`tsch_schedule_remove_link(sf, l)` followed by `memb_free(&nbr_timestamps, ts)`,
or `tsch_schedule_add_link(sf, link_options, LINK_TYPE_NORMAL, addr, timeslot,
channel_offset)`, or no call. -/
inductive schedule_call where
  | remove_link_and_free
  | add_link (link_options addr timeslot channel_offset : Nat)
  | nothing
deriving DecidableEq

/-- Subtraction of two `uint32_t`. -/
def sub_u32 (a b : Nat) : Nat := (((a : Int) - (b : Int)) % 4294967296).toNat

/-- The C expression `x & ~m` on `int` operands: `~m` is `-m - 1` in two's
complement. -/
def and_not (x m : Nat) : Nat := x &&& Frame802154e.int_bits (-(m : Int) - 1)

/-- Body of the loop of `orchestra_delete_old_links_sf` for the link `l`.  The
traversal of the list of links (`list_head`, `list_item_next`) and the link
table are external; the call made for `l` is the result. -/
def orchestra_delete_old_links_sf (c : config) (current_asn_ls4b : Nat) (l : tsch_link) :
    schedule_call :=
  match l.data with
  | some ts =>
    let tx_outdated : Bool :=
      decide (sub_u32 current_asn_ls4b ts.last_tx > c.DEDICATED_SLOT_LIFETIME)
    let rx_outdated : Bool :=
      decide (sub_u32 current_asn_ls4b ts.last_rx > c.DEDICATED_SLOT_LIFETIME)
    if tx_outdated && rx_outdated then
      .remove_link_and_free
    else if !rx_outdated && tx_outdated && decide (l.link_options &&& c.LINK_OPTION_TX ≠ 0) then
      .add_link (and_not l.link_options (c.LINK_OPTION_TX ||| c.LINK_OPTION_SHARED))
        linkaddr_null l.timeslot l.channel_offset
    else if !tx_outdated && rx_outdated && decide (l.link_options &&& c.LINK_OPTION_RX ≠ 0) then
      .add_link (and_not l.link_options c.LINK_OPTION_RX) l.addr l.timeslot l.channel_offset
    else .nothing
  | none => .nothing

/-- The transmit direction of a link is stale: the last transmission is older
than the lease, in `uint32_t` arithmetic. -/
@[reducible] def tx_stale (c : config) (current_asn_ls4b : Nat) (ts : link_timestamps) : Prop :=
  sub_u32 current_asn_ls4b ts.last_tx > c.DEDICATED_SLOT_LIFETIME

/-- The receive direction of a link is stale. -/
@[reducible] def rx_stale (c : config) (current_asn_ls4b : Nat) (ts : link_timestamps) : Prop :=
  sub_u32 current_asn_ls4b ts.last_rx > c.DEDICATED_SLOT_LIFETIME

end Orchestra

namespace Frame802154e

/-! ## Arithmetic of the bit operations -/

theorem to_u8_cast (n : Nat) : to_u8 (n : Int) = n % 256 := by
  unfold to_u8; omega

theorem to_u16_cast (n : Nat) : to_u16 (n : Int) = n % 65536 := by
  unfold to_u16; omega

theorem testBit_false_of_lt_of_le {x i j : Nat} (h : x < 2 ^ i) (hij : i ≤ j) :
    x.testBit j = false :=
  Nat.testBit_lt_two_pow (Nat.lt_of_lt_of_le h (Nat.pow_le_pow_right (by decide) hij))

theorem and_mask_shift (x n k : Nat) :
    (x &&& ((2 ^ n - 1) <<< k)) >>> k = x / 2 ^ k % 2 ^ n := by
  rw [← Nat.shiftRight_eq_div_pow]
  apply Nat.eq_of_testBit_eq
  intro j
  simp only [Nat.testBit_shiftRight, Nat.testBit_and, Nat.testBit_shiftLeft,
    Nat.testBit_two_pow_sub_one, Nat.testBit_mod_two_pow]
  by_cases h : j < n <;> simp [h, Bool.and_comm]

theorem and_bit_ne_zero (x i : Nat) : x &&& 2 ^ i ≠ 0 ↔ x / 2 ^ i % 2 = 1 := by
  rw [Nat.and_two_pow, Nat.toNat_testBit]
  have hp : 0 < 2 ^ i := Nat.two_pow_pos _
  constructor
  · intro h
    rcases Nat.mod_two_eq_zero_or_one (x / 2 ^ i) with h0 | h1
    · rw [h0] at h; simp at h
    · exact h1
  · intro h; rw [h]; omega

theorem or_shift_eq_add {b0 : Nat} (b1 k : Nat) (h : b0 < 2 ^ k) :
    b0 ||| (b1 <<< k) = b0 + b1 * 2 ^ k := by
  rw [Nat.lor_comm, Nat.shiftLeft_eq, Nat.mul_comm b1, ← Nat.mul_add_lt_is_or h]
  omega

theorem or_high_mask {x : Nat} (n k : Nat) (h : x < 2 ^ (k + n)) :
    x ||| ((2 ^ n - 1) <<< k) = (2 ^ n - 1) * 2 ^ k + x % 2 ^ k := by
  have hlt : x % 2 ^ k < 2 ^ k := Nat.mod_lt _ (Nat.two_pow_pos _)
  rw [Nat.mul_comm]
  apply Nat.eq_of_testBit_eq
  intro j
  rw [Nat.testBit_mul_pow_two_add _ hlt]
  simp only [Nat.testBit_or, Nat.testBit_shiftLeft, Nat.testBit_two_pow_sub_one,
    Nat.testBit_mod_two_pow]
  by_cases hj : j < k
  · simp [hj]
  · by_cases hn : j - k < n
    · simp [hj, hn]; omega
    · have : x.testBit j = false := testBit_false_of_lt_of_le h (by omega)
      simp [hj, hn, this]

/-- Decoding of the 16-bit time-correction field, in arithmetic form. -/
theorem time_sync_decode (f : Nat) (hf : f < 65536) :
    (if f &&& 0x8000 ≠ 0 then 1 else 0) = f / 32768 ∧
    (if f &&& 0x0800 ≠ 0 then to_i16 ((f ||| 0xf000 : Nat) : Int)
      else to_i16 ((f &&& 0x0fff : Nat) : Int))
      = if 2048 ≤ f % 4096 then ((f % 4096 : Nat) : Int) - 4096 else ((f % 4096 : Nat) : Int) := by
  have h15 := and_bit_ne_zero f 15
  have h11 := and_bit_ne_zero f 11
  have hor : f ||| 61440 = 61440 + f % 4096 := @or_high_mask f 4 12 (by simpa using hf)
  have hand := Nat.and_pow_two_sub_one_eq_mod f 12
  norm_num at h15 h11 hand
  constructor
  · by_cases h : f &&& 32768 = 0
    · have : ¬ (f / 32768 % 2 = 1) := fun h1 => (h15.mpr h1) h
      simp [h]; omega
    · have := h15.mp h
      simp [h]; omega
  · by_cases h : f &&& 2048 = 0
    · have : ¬ (f / 2048 % 2 = 1) := fun h1 => (h11.mpr h1) h
      rw [if_neg (not_not.mpr h), hand]
      unfold to_i16
      split <;> omega
    · have := h11.mp h
      rw [if_pos h, hor]
      unfold to_i16
      split <;> omega

theorem rd_cons_zero (a : Nat) (l : List Nat) : rd (a :: l) 0 = some (a % 256) := by
  simp [rd]

theorem rd_cons_succ (a : Nat) (l : List Nat) (i : Nat) : rd (a :: l) (i + 1) = rd l i := by
  simp [rd]

/-- The 16-bit field written by the time-correction encoder. -/
theorem ack_field_value (d : Int) :
    to_u16 ((int_bits d &&& 0x0fff : Nat) : Int) = (d % 4096).toNat := by
  have h := Nat.and_pow_two_sub_one_eq_mod (int_bits d) 12
  norm_num at h
  rw [h, to_u16_cast]
  unfold int_bits
  omega

theorem or_nack_bit (t : Nat) (ht : t < 4096) :
    to_u16 ((t ||| 0x8000 : Nat) : Int) = t + 32768 := by
  have h : t ||| 32768 = t + 1 * 2 ^ 15 := @or_shift_eq_add t 1 15 (by norm_num; omega)
  rw [h, to_u16_cast]
  omega

theorem low_byte (f : Nat) : f &&& 0xff = f % 256 := by
  have h := Nat.and_pow_two_sub_one_eq_mod f 8
  norm_num at h
  exact h

theorem high_byte (f : Nat) : (f >>> 8) &&& 0xff = f / 256 % 256 := by
  rw [low_byte, Nat.shiftRight_eq_div_pow]

theorem ack_encode (a b c e : Nat) (len : Int) (hlen : 4 ≤ len) (r : ieee802154_ies) :
    frame80215e_create_ie_ack_nack_time_correction [a, b, c, e] 0 len (some r)
      = (4, [2, 15, ack_field r % 256, ack_field r / 256]) := by
  have hd : to_u16 (((int_bits 2 &&& 0x7f) + ((0x1e &&& 0xff) <<< 7) : Nat) : Int) = 3842 := by
    decide
  have ht : (r.ie_time_correction % 4096).toNat < 4096 := by omega
  unfold frame80215e_create_ie_ack_nack_time_correction create_header_ie_descriptor
    HEADER_IE_ACK_NACK_TIME_CORRECTION
  simp only []
  rw [hd, if_pos (by omega)]
  simp only [ack_field_value, low_byte, high_byte]
  unfold ack_field
  by_cases hn : r.ie_is_nack = 0
  · simp [hn]; omega
  · simp [hn, or_nack_bit _ ht]; omega

theorem parse_loop_next {buf : List Nat} {s s1 : walk_state} (fuel : Nat)
    (hbs : 0 < s.buf_size) (h : loop_body buf s = .next s1) :
    parse_loop (fuel + 1) buf s = parse_loop fuel buf s1 := by
  simp only [parse_loop, gt_iff_lt, hbs, if_true, h]

theorem parse_loop_done {buf : List Nat} {s : walk_state} {o : Outcome} {fuel : Nat}
    (hf : 0 < fuel) (hbs : 0 < s.buf_size) (h : loop_body buf s = .done o) :
    parse_loop fuel buf s = o := by
  obtain ⟨k, rfl⟩ := Nat.exists_eq_succ_of_ne_zero (Nat.pos_iff_ne_zero.mp hf)
  simp only [parse_loop, gt_iff_lt, hbs, if_true, h]

theorem parse_loop_exit (buf : List Nat) {s : walk_state} {fuel : Nat}
    (hf : 0 < fuel) (hbs : s.buf_size = 0) :
    parse_loop fuel buf s = .ret (s.pos : Int) s.ies := by
  obtain ⟨k, rfl⟩ := Nat.exists_eq_succ_of_ne_zero (Nat.pos_iff_ne_zero.mp hf)
  simp [parse_loop, hbs]

theorem rd_lt {buf : List Nat} {i b : Nat} (h : rd buf i = some b) : b < 256 := by
  unfold rd at h
  cases hb : buf[i]? with
  | none => simp [hb] at h
  | some v => simp [hb] at h; omega

/-- The 16-bit descriptor read by the walker, in arithmetic form. -/
theorem desc_value {b0 b1 : Nat} (h0 : b0 < 256) (h1 : b1 < 256) :
    to_u16 (((b1 <<< 8) + b0 : Nat) : Int) = b0 + 256 * b1 := by
  rw [to_u16_cast, Nat.shiftLeft_eq]
  omega

theorem desc_type (d : Nat) :
    ((if d &&& 0x8000 ≠ 0 then 1 else 0) = 0) ↔ d / 32768 % 2 = 0 := by
  have h := and_bit_ne_zero d 15
  norm_num at h
  by_cases hz : d &&& 32768 = 0
  · have : ¬ (d / 32768 % 2 = 1) := fun h1 => (h.mpr h1) hz
    simp [hz]; omega
  · have := h.mp hz
    simp [hz]; omega

theorem header_len (d : Nat) : to_u16 ((d &&& 0x007f : Nat) : Int) = d % 128 := by
  have h := Nat.and_pow_two_sub_one_eq_mod d 7
  norm_num at h
  rw [h, to_u16_cast]; omega

theorem header_id (d : Nat) : to_u8 (((d &&& 0x7f80) >>> 7 : Nat) : Int) = d / 128 % 256 := by
  have h : (d &&& 0x7f80) >>> 7 = d / 2 ^ 7 % 2 ^ 8 := and_mask_shift d 8 7
  rw [h, to_u8_cast]; norm_num

theorem long_len (d : Nat) : to_u16 ((d &&& 0x7ff : Nat) : Int) = d % 2048 := by
  have h := Nat.and_pow_two_sub_one_eq_mod d 11
  norm_num at h
  rw [h, to_u16_cast]; omega

theorem long_id (d : Nat) : to_u8 (((d &&& 0x7800) >>> 11 : Nat) : Int) = d / 2048 % 16 := by
  have h : (d &&& 0x7800) >>> 11 = d / 2 ^ 11 % 2 ^ 4 := and_mask_shift d 4 11
  rw [h, to_u8_cast]; norm_num; omega

theorem short_len (d : Nat) : to_u16 ((d &&& 0x00ff : Nat) : Int) = d % 256 := by
  rw [low_byte, to_u16_cast]; omega

theorem short_id (d : Nat) : to_u8 (((d &&& 0x7f00) >>> 8 : Nat) : Int) = d / 256 % 128 := by
  have h : (d &&& 0x7f00) >>> 8 = d / 2 ^ 8 % 2 ^ 7 := and_mask_shift d 7 8
  rw [h, to_u8_cast]; norm_num; omega

theorem u8_sub_two {n : Nat} (h2 : 2 ≤ n) (h : n < 256) : to_u8 ((n : Int) - 2) = n - 2 := by
  unfold to_u8; omega

theorem advance_eq {pos buf_size len : Nat} (n : Int) (ies : Option ieee802154_ies)
    (h : len ≤ buf_size) (hb : buf_size < 256) :
    advance pos buf_size len n ies = .next ⟨pos + len, buf_size - len, n, ies⟩ := by
  unfold advance to_u8
  congr 2
  omega

/-! ## One iteration of the walker, branch by branch -/

/-- One iteration at the top level on a descriptor with the type bit clear
(header IE), in arithmetic form. -/
theorem loop_body_header {buf : List Nat} {s : walk_state} {b0 b1 : Nat}
    (h0 : rd buf s.pos = some b0) (h1 : rd buf (s.pos + 1) = some b1)
    (hbs : 2 ≤ s.buf_size) (hbs2 : s.buf_size < 256)
    (hn : s.in_nested_mlme = 0) (ht : b1 < 128) :
    loop_body buf s =
      if b0 % 128 > s.buf_size - 2 then .done (.ret (-1) s.ies)
      else
        match frame802154e_parse_header_ie buf (s.pos + 2) ((b0 % 128 : Nat) : Int)
            ((b0 + 256 * b1) / 128 % 256) s.ies with
        | none => .done .oob
        | some (r, ies) =>
          if r = 0 then .done (.ret (-1) ies)
          else if (b0 + 256 * b1) / 128 % 256 = HEADER_IE_LIST_TERMINATION_2 then
            .done (.ret (((s.pos + 2 : Nat) : Int) + ((b0 % 128 : Nat) : Int)) ies)
          else advance (s.pos + 2) (s.buf_size - 2) (b0 % 128) s.in_nested_mlme ies := by
  have hb0 := rd_lt h0
  have hty : ((if (b0 + 256 * b1) &&& 0x8000 ≠ 0 then 1 else 0) = 0) :=
    (desc_type _).mpr (by omega)
  have hlen : (b0 + 256 * b1) % 128 = b0 % 128 := by omega
  unfold loop_body
  rw [h0, h1]
  simp only [desc_value hb0 (rd_lt h1), u8_sub_two hbs hbs2, header_len, header_id, hlen]
  rw [if_neg (by omega), if_pos hn, if_pos hty]

/-- One iteration at the top level on a descriptor with the type bit set
(payload IE), in arithmetic form. -/
theorem loop_body_payload {buf : List Nat} {s : walk_state} {b0 b1 : Nat}
    (h0 : rd buf s.pos = some b0) (h1 : rd buf (s.pos + 1) = some b1)
    (hbs : 2 ≤ s.buf_size) (hbs2 : s.buf_size < 256)
    (hn : s.in_nested_mlme = 0) (ht : 128 ≤ b1) :
    loop_body buf s =
      if (b0 + 256 * b1) / 2048 % 16 = 1 then
        advance (s.pos + 2) (s.buf_size - 2) 0 (((b0 + 256 * b1) % 2048 : Nat) : Int) s.ies
      else
        advance (s.pos + 2) (s.buf_size - 2) ((b0 + 256 * b1) % 2048) s.in_nested_mlme
          s.ies := by
  have hb0 := rd_lt h0
  have hb1 := rd_lt h1
  have hty : ¬ ((if (b0 + 256 * b1) &&& 0x8000 ≠ 0 then 1 else 0) = 0) := by
    rw [desc_type]; omega
  unfold loop_body
  rw [h0, h1]
  simp only [desc_value hb0 hb1, u8_sub_two hbs hbs2, long_len, long_id]
  rw [if_neg (by omega), if_pos hn, if_neg hty]

/-- One iteration inside an MLME group on a descriptor with the type bit
clear (short sub-IE), in arithmetic form. -/
theorem loop_body_short {buf : List Nat} {s : walk_state} {b0 b1 : Nat}
    (h0 : rd buf s.pos = some b0) (h1 : rd buf (s.pos + 1) = some b1)
    (hbs : 2 ≤ s.buf_size) (hbs2 : s.buf_size < 256)
    (hn : s.in_nested_mlme ≠ 0) (ht : b1 < 128) :
    loop_body buf s =
      if b0 > s.buf_size - 2 then .done (.ret (-1) s.ies)
      else
        match frame802154e_parse_mlme_short_ie buf (s.pos + 2) ((b0 : Nat) : Int) b1 s.ies with
        | none => .done .oob
        | some (r, ies) =>
          if r = 0 then .done (.ret (-1) ies)
          else if s.in_nested_mlme - (2 + (b0 : Int)) < 0 then .done (.ret (-1) ies)
          else if s.in_nested_mlme - (2 + (b0 : Int)) = 0 then
            .done (.ret (((s.pos + 2 : Nat) : Int) + ((b0 : Nat) : Int)) ies)
          else advance (s.pos + 2) (s.buf_size - 2) b0 (s.in_nested_mlme - (2 + (b0 : Int))) ies := by
  have hb0 := rd_lt h0
  have hb1 := rd_lt h1
  have hty : ((if (b0 + 256 * b1) &&& 0x8000 ≠ 0 then 1 else 0) = 0) :=
    (desc_type _).mpr (by omega)
  have hlen : (b0 + 256 * b1) % 256 = b0 := by omega
  have hid : (b0 + 256 * b1) / 256 % 128 = b1 := by omega
  unfold loop_body
  rw [h0, h1]
  simp only [desc_value hb0 hb1, u8_sub_two hbs hbs2, short_len, short_id, hlen, hid]
  rw [if_neg (by omega), if_neg hn, if_pos hty]

/-- One iteration inside an MLME group on a descriptor with the type bit set
(long sub-IE), in arithmetic form. -/
theorem loop_body_long {buf : List Nat} {s : walk_state} {b0 b1 : Nat}
    (h0 : rd buf s.pos = some b0) (h1 : rd buf (s.pos + 1) = some b1)
    (hbs : 2 ≤ s.buf_size) (hbs2 : s.buf_size < 256)
    (hn : s.in_nested_mlme ≠ 0) (ht : 128 ≤ b1) :
    loop_body buf s =
      if (b0 + 256 * b1) % 2048 > s.buf_size - 2 then .done (.ret (-1) s.ies)
      else
        match frame802154e_parse_mlme_long_ie buf (s.pos + 2)
            (((b0 + 256 * b1) % 2048 : Nat) : Int) ((b0 + 256 * b1) / 2048 % 16) s.ies with
        | none => .done .oob
        | some (r, ies) =>
          if r = 0 then .done (.ret (-1) ies)
          else if s.in_nested_mlme - (2 + (((b0 + 256 * b1) % 2048 : Nat) : Int)) < 0 then
            .done (.ret (-1) ies)
          else if s.in_nested_mlme - (2 + (((b0 + 256 * b1) % 2048 : Nat) : Int)) = 0 then
            .done (.ret (((s.pos + 2 : Nat) : Int) + (((b0 + 256 * b1) % 2048 : Nat) : Int)) ies)
          else advance (s.pos + 2) (s.buf_size - 2) ((b0 + 256 * b1) % 2048)
            (s.in_nested_mlme - (2 + (((b0 + 256 * b1) % 2048 : Nat) : Int))) ies := by
  have hb0 := rd_lt h0
  have hb1 := rd_lt h1
  have hty : ¬ ((if (b0 + 256 * b1) &&& 0x8000 ≠ 0 then 1 else 0) = 0) := by
    rw [desc_type]; omega
  unfold loop_body
  rw [h0, h1]
  simp only [desc_value hb0 hb1, u8_sub_two hbs hbs2, long_len, long_id]
  rw [if_neg (by omega), if_neg hn, if_neg hty]

/-- With one byte left the iteration reports an error. -/
theorem loop_body_one_byte (buf : List Nat) {s : walk_state} (h : s.buf_size < 2) :
    loop_body buf s = .done (.ret (-1) s.ies) := by
  unfold loop_body
  rw [if_pos h]

/-! ## The per-IE parsers -/

theorem parse_header_ie_other (buf : List Nat) (p : Nat) (len : Int) (element_id : Nat)
    (ies : Option ieee802154_ies)
    (h : element_id ≠ HEADER_IE_ACK_NACK_TIME_CORRECTION ∨ len ≠ 2) :
    frame802154e_parse_header_ie buf p len element_id ies = some (len, ies) := by
  unfold frame802154e_parse_header_ie
  rcases h with h | h
  · rw [if_neg h]
  · rw [if_neg h]; split <;> rfl

theorem parse_header_ie_time_correction {buf : List Nat} {p x y : Nat} (r : ieee802154_ies)
    (hx : rd buf p = some x) (hy : rd buf (p + 1) = some y) :
    frame802154e_parse_header_ie buf p 2 HEADER_IE_ACK_NACK_TIME_CORRECTION (some r)
      = some (2, some { r with ie_is_nack := (x + y * 256) / 32768,
                               ie_time_correction := sext12 (x + y * 256) }) := by
  have hx' := rd_lt hx
  have hy' := rd_lt hy
  have hf : x + y * 256 < 65536 := by omega
  have hor : x ||| y <<< 8 = x + y * 256 := or_shift_eq_add y 8 (by simpa using hx')
  obtain ⟨h1, h2⟩ := time_sync_decode (x + y * 256) hf
  unfold frame802154e_parse_header_ie
  rw [if_pos rfl, if_pos rfl]
  simp only [hx, hy, hor, to_u16_cast, Nat.mod_eq_of_lt hf, h1, h2, sext12]

theorem parse_mlme_short_ie_other (buf : List Nat) (p : Nat) (len : Int) (sub_id : Nat)
    (ies : Option ieee802154_ies)
    (h : (sub_id ≠ PAYLOAD_IE_TSCH_SYNCHRONIZATION ∨ len ≠ 6) ∧
         (sub_id ≠ PAYLOAD_IE_TSCH_TIMESLOT ∨ len ≠ 1)) :
    frame802154e_parse_mlme_short_ie buf p len sub_id ies = some (len, ies) := by
  unfold frame802154e_parse_mlme_short_ie
  obtain ⟨ha, hb⟩ := h
  by_cases h1 : sub_id = PAYLOAD_IE_TSCH_SYNCHRONIZATION
  · rw [if_pos h1, if_neg (by tauto)]
  · rw [if_neg h1]
    by_cases h2 : sub_id = PAYLOAD_IE_TSCH_TIMESLOT
    · rw [if_pos h2, if_neg (by tauto)]
    · rw [if_neg h2]

theorem parse_mlme_long_ie_other (buf : List Nat) (p : Nat) (len : Int) (sub_id : Nat)
    (ies : Option ieee802154_ies)
    (h : sub_id ≠ PAYLOAD_IE_TSCH_CHANNEL_HOPPING_SEQUENCE ∨ len ≠ 1) :
    frame802154e_parse_mlme_long_ie buf p len sub_id ies = some (len, ies) := by
  unfold frame802154e_parse_mlme_long_ie
  rcases h with h | h
  · rw [if_neg h]
  · rw [if_neg h]; split <;> rfl

theorem asn_decode {b0 b1 b2 b3 : Nat} (h0 : b0 < 256) (h1 : b1 < 256) (h2 : b2 < 256)
    (h3 : b3 < 256) :
    b0 ||| ((b1 <<< 8) % 4294967296) ||| ((b2 <<< 16) % 4294967296)
      ||| ((b3 <<< 24) % 4294967296) = b0 + b1 * 256 + b2 * 65536 + b3 * 16777216 := by
  have e1 : (b1 <<< 8) % 4294967296 = b1 <<< 8 := by
    rw [Nat.shiftLeft_eq]; norm_num; omega
  have e2 : (b2 <<< 16) % 4294967296 = b2 <<< 16 := by
    rw [Nat.shiftLeft_eq]; norm_num; omega
  have e3 : (b3 <<< 24) % 4294967296 = b3 <<< 24 := by
    rw [Nat.shiftLeft_eq]; norm_num; omega
  rw [e1, e2, e3, or_shift_eq_add b1 8 (by norm_num; omega),
    or_shift_eq_add b2 16 (by norm_num; omega), or_shift_eq_add b3 24 (by norm_num; omega)]
  norm_num

theorem parse_mlme_short_ie_sync {buf : List Nat} {p b0 b1 b2 b3 b4 b5 : Nat}
    (r : ieee802154_ies)
    (h0 : rd buf p = some b0) (h1 : rd buf (p + 1) = some b1) (h2 : rd buf (p + 2) = some b2)
    (h3 : rd buf (p + 3) = some b3) (h4 : rd buf (p + 4) = some b4)
    (h5 : rd buf (p + 5) = some b5) :
    frame802154e_parse_mlme_short_ie buf p 6 PAYLOAD_IE_TSCH_SYNCHRONIZATION (some r)
      = some (6, some { r with
          ie_asn := ⟨b0 + b1 * 256 + b2 * 65536 + b3 * 16777216, b4⟩,
          ie_join_priority := b5 }) := by
  unfold frame802154e_parse_mlme_short_ie
  rw [if_pos rfl, if_pos rfl]
  simp only [h0, h1, h2, h3, h4, h5, asn_decode (rd_lt h0) (rd_lt h1) (rd_lt h2) (rd_lt h3),
    to_u8_cast, Nat.mod_eq_of_lt (rd_lt h4), Nat.mod_eq_of_lt (rd_lt h5)]

/-! ## Round trip of the ACK/NACK time-correction IE -/

/-- An iteration at the top level over a time-correction header IE
(descriptor bytes `0x02 0x0f`) with a present record. -/
theorem loop_body_time_correction {buf : List Nat} {s : walk_state} {x y : Nat}
    {r : ieee802154_ies}
    (h0 : rd buf s.pos = some 2) (h1 : rd buf (s.pos + 1) = some 15)
    (hx : rd buf (s.pos + 2) = some x) (hy : rd buf (s.pos + 3) = some y)
    (hbs : 4 ≤ s.buf_size) (hbs2 : s.buf_size < 256)
    (hn : s.in_nested_mlme = 0) (hies : s.ies = some r) :
    loop_body buf s = .next ⟨s.pos + 4, s.buf_size - 4, 0,
      some { r with ie_is_nack := (x + y * 256) / 32768,
                    ie_time_correction := sext12 (x + y * 256) }⟩ := by
  have e1 : ((2 % 128 : Nat) : Int) = 2 := by norm_num
  have e2 : (2 + 256 * 15) / 128 % 256 = HEADER_IE_ACK_NACK_TIME_CORRECTION := by decide
  have e3 : (2 : Nat) % 128 = 2 := by norm_num
  rw [loop_body_header h0 h1 (by omega) hbs2 hn (by norm_num), e1, e2, e3, hies,
    parse_header_ie_time_correction r hx hy]
  simp only []
  rw [if_neg (by omega), if_neg (by decide), if_neg (by decide),
    advance_eq _ _ (by omega) (by omega), hn]
  congr 2

theorem length_eq_four {l : List Nat} (h : l.length = 4) :
    ∃ a b c e, l = [a, b, c, e] := by
  match l, h with
  | [a, b, c, e], _ => exact ⟨a, b, c, e, rfl⟩

/-- C2: the ACK/NACK time-correction encoder writes a 4-byte IE and returns 4,
and the walker on these 4 bytes returns 4 with `ie_time_correction` and
`ie_is_nack` equal to the encoder's inputs, for every drift in
`[-2048, 2047]` and every flag in `{0, 1}`. -/
theorem ack_nack_time_correction_round_trip (buf : List Nat) (r r0 : ieee802154_ies)
    (hbuf : buf.length = 4)
    (hlo : -2048 ≤ r.ie_time_correction) (hhi : r.ie_time_correction ≤ 2047)
    (hn : r.ie_is_nack = 0 ∨ r.ie_is_nack = 1) :
    (frame80215e_create_ie_ack_nack_time_correction buf 0 4 (some r)).1 = 4 ∧
    (frame80215e_create_ie_ack_nack_time_correction buf 0 4 (some r)).2.length = 4 ∧
    frame802154e_parse_information_elements
        (frame80215e_create_ie_ack_nack_time_correction buf 0 4 (some r)).2 4 (some r0)
      = .ret 4 (some { r0 with ie_time_correction := r.ie_time_correction,
                               ie_is_nack := r.ie_is_nack }) := by
  obtain ⟨a, b, c, e, rfl⟩ := length_eq_four hbuf
  rw [ack_encode a b c e 4 (le_refl _) r]
  refine ⟨rfl, rfl, ?_⟩
  have hF : ack_field r < 65536 := by unfold ack_field; split <;> omega
  have hx : rd [2, 15, ack_field r % 256, ack_field r / 256] (0 + 2)
      = some (ack_field r % 256) := by simp [rd]
  have hy : rd [2, 15, ack_field r % 256, ack_field r / 256] (0 + 3)
      = some (ack_field r / 256) := by
    simp [rd]; omega
  have hstep := @loop_body_time_correction [2, 15, ack_field r % 256, ack_field r / 256]
    ⟨0, 4, 0, some r0⟩ _ _ r0 (by simp [rd]) (by simp [rd]) hx hy
    (by simp) (by simp) rfl rfl
  unfold frame802154e_parse_information_elements
  rw [show (4 : Nat) % 256 = 4 from rfl,
    parse_loop_next _ (by simp) hstep, parse_loop_exit _ (by simp) (by simp)]
  have hsum : ack_field r % 256 + ack_field r / 256 * 256 = ack_field r := by omega
  simp only [hsum, Outcome.ret.injEq, Nat.cast_ofNat, true_and, Option.some.injEq]
  have hnack : ack_field r / 32768 = r.ie_is_nack := by
    unfold ack_field; rcases hn with h | h <;> simp [h] <;> omega
  have htc : sext12 (ack_field r) = r.ie_time_correction := by
    unfold sext12 ack_field; rcases hn with h | h <;> simp [h] <;> split <;> omega
  rw [hnack, htc]
  simp

theorem ack_nack_time_correction_round_trip_witness :
    frame802154e_parse_information_elements
        (frame80215e_create_ie_ack_nack_time_correction [0, 0, 0, 0] 0 4
          (some ⟨-5, 1, 0, ⟨0, 0⟩, 0, 0, 0⟩)).2 4 (some ⟨0, 0, 0, ⟨0, 0⟩, 0, 0, 0⟩)
      = .ret 4 (some ⟨-5, 1, 0, ⟨0, 0⟩, 0, 0, 0⟩) :=
  (ack_nack_time_correction_round_trip [0, 0, 0, 0] ⟨-5, 1, 0, ⟨0, 0⟩, 0, 0, 0⟩
    ⟨0, 0, 0, ⟨0, 0⟩, 0, 0, 0⟩ rfl (by decide) (by decide) (Or.inr rfl)).2.2

/-! ## Round trip of the synchronization IE -/

theorem length_eq_ten {l : List Nat} (h : l.length = 10) :
    ∃ c0 c1 c2 c3 c4 c5 c6 c7 c8 c9, [c0, c1, c2, c3, c4, c5, c6, c7, c8, c9] = l := by
  match l, h with
  | [c0, c1, c2, c3, c4, c5, c6, c7, c8, c9], _ =>
    exact ⟨c0, c1, c2, c3, c4, c5, c6, c7, c8, c9, rfl⟩

theorem mlme_encode_eight (a0 a1 : Nat) (l : List Nat) (len : Int) (hlen : 2 ≤ len)
    (r : ieee802154_ies) (hm : r.ie_mlme_len = 8) :
    frame80215e_create_ie_mlme (a0 :: a1 :: l) 0 len (some r) = (2, 8 :: 136 :: l) := by
  have hd : to_u16 (((int_bits ((8 : Nat) : Int) &&& 0x07ff) + ((1 &&& 0x0f) <<< 11)
      + (1 <<< 15) : Nat) : Int) = 34824 := by decide
  unfold frame80215e_create_ie_mlme create_payload_ie_descriptor PAYLOAD_IE_MLME
  simp only []
  rw [hm, hd, if_pos (by omega)]
  rfl

theorem sync_encode (p0 p1 a2 a3 a4 a5 a6 a7 a8 a9 : Nat) (len : Int) (hlen : 8 ≤ len)
    (r : ieee802154_ies) :
    frame80215e_create_ie_tsch_synchronization [p0, p1, a2, a3, a4, a5, a6, a7, a8, a9] 2 len
        (some r)
      = (8, [p0, p1, 6, 26, r.ie_asn.ls4b % 256, r.ie_asn.ls4b / 256 % 256,
          r.ie_asn.ls4b / 65536 % 256, r.ie_asn.ls4b / 16777216 % 256,
          r.ie_asn.ms1b % 256, r.ie_join_priority % 256]) := by
  have hd : to_u16 (((int_bits 6 &&& 0xff) + ((0x1a &&& 0x7f) <<< 8) : Nat) : Int) = 6662 := by
    decide
  unfold frame80215e_create_ie_tsch_synchronization create_mlme_short_ie_descriptor
    PAYLOAD_IE_TSCH_SYNCHRONIZATION
  simp only []
  rw [hd, if_pos (by omega)]
  simp only [to_u8_cast, Nat.shiftRight_eq_div_pow]
  simp [List.set]
  decide

/-- An iteration at the top level over the descriptor of an MLME payload IE:
the walker enters the nested state and consumes the two descriptor bytes
only. -/
theorem loop_body_mlme {buf : List Nat} {s : walk_state} {b0 b1 : Nat}
    (h0 : rd buf s.pos = some b0) (h1 : rd buf (s.pos + 1) = some b1)
    (hbs : 2 ≤ s.buf_size) (hbs2 : s.buf_size < 256)
    (hn : s.in_nested_mlme = 0) (ht : 128 ≤ b1) (hid : (b0 + 256 * b1) / 2048 % 16 = 1) :
    loop_body buf s = .next ⟨s.pos + 2, s.buf_size - 2,
      (((b0 + 256 * b1) % 2048 : Nat) : Int), s.ies⟩ := by
  rw [loop_body_payload h0 h1 hbs hbs2 hn ht, if_pos hid,
    advance_eq _ _ (Nat.zero_le _) (by omega)]
  rfl

/-- An iteration inside an MLME group over a synchronization sub-IE of
declared length 6 that fills the group exactly. -/
theorem loop_body_sync_last {buf : List Nat} {s : walk_state} {b0 b1 b2 b3 b4 b5 : Nat}
    {r : ieee802154_ies}
    (h0 : rd buf s.pos = some 6) (h1 : rd buf (s.pos + 1) = some 26)
    (p0 : rd buf (s.pos + 2) = some b0) (p1 : rd buf (s.pos + 2 + 1) = some b1)
    (p2 : rd buf (s.pos + 2 + 2) = some b2) (p3 : rd buf (s.pos + 2 + 3) = some b3)
    (p4 : rd buf (s.pos + 2 + 4) = some b4) (p5 : rd buf (s.pos + 2 + 5) = some b5)
    (hbs : 8 ≤ s.buf_size) (hbs2 : s.buf_size < 256)
    (hn : s.in_nested_mlme = 8) (hies : s.ies = some r) :
    loop_body buf s = .done (.ret ((s.pos : Int) + 8)
      (some { r with ie_asn := ⟨b0 + b1 * 256 + b2 * 65536 + b3 * 16777216, b4⟩,
                     ie_join_priority := b5 })) := by
  have e1 : (((6 : Nat) : Nat) : Int) = 6 := rfl
  rw [loop_body_short h0 h1 (by omega) hbs2 (by omega) (by norm_num), e1, hies,
    show (26 : Nat) = PAYLOAD_IE_TSCH_SYNCHRONIZATION from rfl,
    parse_mlme_short_ie_sync r p0 p1 p2 p3 p4 p5]
  simp only []
  rw [if_neg (by omega), if_neg (by decide), hn, if_neg (by decide), if_pos (by decide)]
  congr 2

/-- C1: the 10-byte buffer written by `frame80215e_create_ie_mlme` (with
`ie_mlme_len = 8`) followed by `frame80215e_create_ie_tsch_synchronization`
is parsed by the walker with return value 10, and the record then holds the
ASN low part, the ASN high part and the join priority given to the encoder,
for every 32-bit low part and 8-bit high part and join priority. -/
theorem synchronization_round_trip (buf : List Nat) (r r0 : ieee802154_ies)
    (hbuf : buf.length = 10) (hmlme : r.ie_mlme_len = 8)
    (hls : r.ie_asn.ls4b < 4294967296) (hms : r.ie_asn.ms1b < 256)
    (hjp : r.ie_join_priority < 256) :
    (frame80215e_create_ie_mlme buf 0 10 (some r)).1 = 2 ∧
    (frame80215e_create_ie_tsch_synchronization
      (frame80215e_create_ie_mlme buf 0 10 (some r)).2 2 8 (some r)).1 = 8 ∧
    frame802154e_parse_information_elements
        (frame80215e_create_ie_tsch_synchronization
          (frame80215e_create_ie_mlme buf 0 10 (some r)).2 2 8 (some r)).2 10 (some r0)
      = .ret 10 (some { r0 with ie_asn := ⟨r.ie_asn.ls4b, r.ie_asn.ms1b⟩,
                                ie_join_priority := r.ie_join_priority }) := by
  obtain ⟨a0, a1, a2, a3, a4, a5, a6, a7, a8, a9, rfl⟩ := length_eq_ten hbuf
  rw [mlme_encode_eight a0 a1 _ 10 (by decide) r hmlme,
    sync_encode 8 136 a2 a3 a4 a5 a6 a7 a8 a9 8 (le_refl _) r]
  refine ⟨rfl, rfl, ?_⟩
  have hstep1 := @loop_body_mlme
    [8, 136, 6, 26, r.ie_asn.ls4b % 256, r.ie_asn.ls4b / 256 % 256,
      r.ie_asn.ls4b / 65536 % 256, r.ie_asn.ls4b / 16777216 % 256,
      r.ie_asn.ms1b % 256, r.ie_join_priority % 256]
    ⟨0, 10, 0, some r0⟩ 8 136 (by simp [rd]) (by simp [rd])
    (by simp) (by simp) rfl (by decide) (by decide)
  have hstep2 := @loop_body_sync_last
    [8, 136, 6, 26, r.ie_asn.ls4b % 256, r.ie_asn.ls4b / 256 % 256,
      r.ie_asn.ls4b / 65536 % 256, r.ie_asn.ls4b / 16777216 % 256,
      r.ie_asn.ms1b % 256, r.ie_join_priority % 256]
    ⟨2, 8, 8, some r0⟩
    (r.ie_asn.ls4b % 256) (r.ie_asn.ls4b / 256 % 256)
    (r.ie_asn.ls4b / 65536 % 256) (r.ie_asn.ls4b / 16777216 % 256)
    r.ie_asn.ms1b r.ie_join_priority r0
    (by simp [rd]) (by simp [rd]) (by simp [rd]) (by simp [rd]) (by simp [rd])
    (by simp [rd]) (by simp [rd]; omega) (by simp [rd]; omega) (by simp) (by simp) rfl rfl
  unfold frame802154e_parse_information_elements
  rw [show (10 : Nat) % 256 = 10 from rfl, parse_loop_next _ (by simp) hstep1]
  have hasn : r.ie_asn.ls4b % 256 + r.ie_asn.ls4b / 256 % 256 * 256
      + r.ie_asn.ls4b / 65536 % 256 * 65536 + r.ie_asn.ls4b / 16777216 % 256 * 16777216
      = r.ie_asn.ls4b := by omega
  rw [hasn] at hstep2
  exact parse_loop_done (by simp) (by simp) hstep2

theorem synchronization_round_trip_witness :
    frame802154e_parse_information_elements
        (frame80215e_create_ie_tsch_synchronization
          (frame80215e_create_ie_mlme [0, 0, 0, 0, 0, 0, 0, 0, 0, 0] 0 10
            (some ⟨0, 0, 8, ⟨0x12345678, 0x9A⟩, 3, 0, 0⟩)).2 2 8
          (some ⟨0, 0, 8, ⟨0x12345678, 0x9A⟩, 3, 0, 0⟩)).2 10
        (some ⟨0, 0, 0, ⟨0, 0⟩, 0, 0, 0⟩)
      = .ret 10 (some ⟨0, 0, 0, ⟨0x12345678, 0x9A⟩, 3, 0, 0⟩) :=
  (synchronization_round_trip [0, 0, 0, 0, 0, 0, 0, 0, 0, 0]
    ⟨0, 0, 8, ⟨0x12345678, 0x9A⟩, 3, 0, 0⟩ ⟨0, 0, 0, ⟨0, 0⟩, 0, 0, 0⟩
    rfl rfl (by decide) (by decide) (by decide)).2.2

/-! ## Zero-length header IEs, unchecked payload IEs, wrong-length sub-IEs -/

/-- An iteration at the top level over a header IE of declared length 0:
the parser returns the length, 0, which the walker reads as a failure. -/
theorem loop_body_header_zero {buf : List Nat} {s : walk_state} {b0 b1 : Nat}
    (h0 : rd buf s.pos = some b0) (h1 : rd buf (s.pos + 1) = some b1)
    (hbs : 2 ≤ s.buf_size) (hbs2 : s.buf_size < 256)
    (hn : s.in_nested_mlme = 0) (ht : b1 < 128) (hlen : b0 % 128 = 0) :
    loop_body buf s = .done (.ret (-1) s.ies) := by
  rw [loop_body_header h0 h1 hbs hbs2 hn ht, hlen, if_neg (by omega),
    parse_header_ie_other _ _ _ _ _ (Or.inr (by decide))]
  simp

/-- C3 (as the code behaves): on the buffer `0x80 0x3f`, a list-termination
header IE of declared length 0, with `buf_size = 2`, the walker returns -1 and
not 2, whatever the record. -/
theorem list_termination_only_is_rejected (ies : Option ieee802154_ies) :
    frame802154e_parse_information_elements [0x80, 0x3f] 2 ies = .ret (-1) ies := by
  have hstep := @loop_body_header_zero [0x80, 0x3f] ⟨0, 2, 0, ies⟩ 0x80 0x3f
    (by simp [rd]) (by simp [rd]) (by simp) (by simp) rfl (by decide) (by decide)
  exact parse_loop_done (by simp) (by simp) hstep

/-- C4 (as the code behaves): on the buffer `0x00 0x81`, a payload IE with
group id 0 and declared length 256 with no payload byte present, the walker
performs no length check, wraps `buf_size` round to 0 and returns 258, not
-1. -/
theorem payload_ie_truncation_not_reported (ies : Option ieee802154_ies) :
    frame802154e_parse_information_elements [0x00, 0x81] 2 ies = .ret 258 ies := by
  have hstep : loop_body [0x00, 0x81] ⟨0, 2, 0, ies⟩ = .next ⟨258, 0, 0, ies⟩ := by
    rw [@loop_body_payload [0x00, 0x81] ⟨0, 2, 0, ies⟩ 0x00 0x81
      (by simp [rd]) (by simp [rd]) (by simp) (by simp) rfl (by decide)]
    rfl
  unfold frame802154e_parse_information_elements
  rw [show (2 : Nat) % 256 = 2 from rfl, parse_loop_next _ (by simp) hstep,
    parse_loop_exit _ (by simp) rfl]
  rfl

/-- C5 (as the code behaves): on the 6-byte buffer made of the encoded
time-correction IE for drift -5 with the NACK flag set, followed by the
list-termination header IE `0x80 0x3f`, the walker writes `ie_is_nack = 1`
and `ie_time_correction = -5` and then returns -1, not 6. -/
theorem time_correction_then_termination_is_rejected :
    frame802154e_parse_information_elements
        ((frame80215e_create_ie_ack_nack_time_correction [0, 0, 0, 0] 0 4
          (some ⟨-5, 1, 0, ⟨0, 0⟩, 0, 0, 0⟩)).2 ++ [0x80, 0x3f]) 6
        (some ⟨0, 0, 0, ⟨0, 0⟩, 0, 0, 0⟩)
      = .ret (-1) (some ⟨-5, 1, 0, ⟨0, 0⟩, 0, 0, 0⟩) := by
  decide

/-- C6 (as the code behaves): an unknown header IE (element id 0) of declared
length 0 is rejected, not skipped: on the buffer `0x00 0x00` the walker
returns -1, while on the empty rest alone it returns 0, so the result is not
`2 + 0 + 0`. -/
theorem unknown_zero_length_header_ie_is_rejected (ies : Option ieee802154_ies) :
    frame802154e_parse_information_elements [0x00, 0x00] 2 ies = .ret (-1) ies ∧
    frame802154e_parse_information_elements [] 0 ies = .ret 0 ies := by
  have hstep := @loop_body_header_zero [0x00, 0x00] ⟨0, 2, 0, ies⟩ 0x00 0x00
    (by simp [rd]) (by simp [rd]) (by simp) (by simp) rfl (by decide) (by decide)
  exact ⟨parse_loop_done (by simp) (by simp) hstep, rfl⟩

/-- C9: `frame802154e_parse_mlme_short_ie` called with sub id 0x1a and a
declared length other than 6 reads nothing, returns the length and leaves
every field of the record (the ASN and the join priority among them) as it
was, for every buffer, position and record. -/
theorem synchronization_wrong_length_writes_nothing (buf : List Nat) (p : Nat) (len : Int)
    (ies : Option ieee802154_ies) (hlen : len ≠ 6) :
    frame802154e_parse_mlme_short_ie buf p len PAYLOAD_IE_TSCH_SYNCHRONIZATION ies
      = some (len, ies) :=
  parse_mlme_short_ie_other buf p len _ ies ⟨Or.inr hlen, Or.inl (by decide)⟩

theorem synchronization_wrong_length_writes_nothing_witness :
    frame802154e_parse_mlme_short_ie [1, 2, 3, 4, 5] 0 5 PAYLOAD_IE_TSCH_SYNCHRONIZATION
        (some ⟨7, 1, 0, ⟨0x12345678, 0x9A⟩, 3, 0, 0⟩)
      = some (5, some ⟨7, 1, 0, ⟨0x12345678, 0x9A⟩, 3, 0, 0⟩) :=
  synchronization_wrong_length_writes_nothing [1, 2, 3, 4, 5] 0 5 _ (by decide)

/-! ## A synchronization sub-IE of wrong length -/

/-- C8, counterexample: inside an MLME group of declared length 7, a
synchronization sub-IE (sub id 0x1a) of declared length 5 with its 5 payload
bytes is not rejected; the walker returns 9 and leaves the record as it
was. -/
theorem synchronization_wrong_length_not_rejected :
    frame802154e_parse_information_elements [0x07, 0x88, 0x05, 0x1a, 1, 2, 3, 4, 5] 9
        (some ⟨0, 0, 0, ⟨0, 0⟩, 0, 0, 0⟩)
      = .ret 9 (some ⟨0, 0, 0, ⟨0, 0⟩, 0, 0, 0⟩) := by
  decide

/-- C8, amended: when the walker, nested in an MLME group, reaches a short
sub-IE with sub id 0x1a and a declared length `L` other than 6, it returns -1
exactly when `L` is 0, or `L` exceeds the bytes left after the descriptor, or
`2 + L` exceeds what is left of the group; otherwise the sub-IE is skipped
without any write: the walker returns the bytes consumed when the sub-IE ends
the group, and else goes on with the next descriptor. -/
theorem synchronization_wrong_length_is_skipped (buf : List Nat) (s : walk_state)
    (fuel L : Nat)
    (h0 : rd buf s.pos = some L) (h1 : rd buf (s.pos + 1) = some PAYLOAD_IE_TSCH_SYNCHRONIZATION)
    (hbs : 2 ≤ s.buf_size) (hbs2 : s.buf_size < 256) (hn : s.in_nested_mlme ≠ 0)
    (hL : L ≠ 6) :
    parse_loop (fuel + 1) buf s =
      if L = 0 ∨ s.buf_size - 2 < L ∨ s.in_nested_mlme < 2 + (L : Int) then .ret (-1) s.ies
      else if s.in_nested_mlme = 2 + (L : Int) then .ret ((s.pos : Int) + 2 + (L : Int)) s.ies
      else parse_loop fuel buf
        ⟨s.pos + 2 + L, s.buf_size - 2 - L, s.in_nested_mlme - (2 + (L : Int)), s.ies⟩ := by
  have hbody := loop_body_short h0 h1 hbs hbs2 hn (by decide)
  rw [parse_mlme_short_ie_other buf _ _ _ s.ies
    ⟨Or.inr (by omega), Or.inl (by decide)⟩] at hbody
  simp only [] at hbody
  by_cases c1 : s.buf_size - 2 < L
  · rw [if_pos c1] at hbody
    rw [parse_loop_done (Nat.succ_pos _) (by omega) hbody, if_pos (Or.inr (Or.inl c1))]
  · rw [if_neg c1] at hbody
    by_cases c2 : L = 0
    · rw [if_pos (by omega)] at hbody
      rw [parse_loop_done (Nat.succ_pos _) (by omega) hbody, if_pos (Or.inl c2)]
    · rw [if_neg (by omega)] at hbody
      by_cases c3 : s.in_nested_mlme < 2 + (L : Int)
      · rw [if_pos (by omega)] at hbody
        rw [parse_loop_done (Nat.succ_pos _) (by omega) hbody, if_pos (Or.inr (Or.inr c3))]
      · rw [if_neg (by omega)] at hbody
        rw [if_neg (by tauto)]
        by_cases c4 : s.in_nested_mlme = 2 + (L : Int)
        · rw [if_pos (by omega)] at hbody
          rw [parse_loop_done (Nat.succ_pos _) (by omega) hbody, if_pos c4]
          congr 1
        · rw [if_neg (by omega), advance_eq _ _ (by omega) (by omega)] at hbody
          rw [parse_loop_next _ (by omega) hbody, if_neg c4]

theorem synchronization_wrong_length_is_skipped_witness :
    parse_loop 1 [0x07, 0x88, 0x05, 0x1a, 1, 2, 3, 4, 5] ⟨2, 7, 7, none⟩ = .ret 9 none :=
  (synchronization_wrong_length_is_skipped [0x07, 0x88, 0x05, 0x1a, 1, 2, 3, 4, 5]
    ⟨2, 7, 7, none⟩ 0 5 (by decide) (by decide) (by decide) (by decide) (by decide)
    (by decide)).trans (by decide)

/-! ## A failed parse and the record -/

theorem to_u8_lt (x : Int) : to_u8 x < 256 := by
  unfold to_u8; omega

theorem loop_body_oob_left {buf : List Nat} {s : walk_state} (hbs : 2 ≤ s.buf_size)
    (h : rd buf (s.pos + 1) = none) : loop_body buf s = .done .oob := by
  unfold loop_body
  rw [if_neg (by omega), h]

theorem loop_body_oob_right {buf : List Nat} {s : walk_state} (hbs : 2 ≤ s.buf_size)
    (h : rd buf s.pos = none) : loop_body buf s = .done .oob := by
  unfold loop_body
  rw [if_neg (by omega), h]
  split <;> simp_all

theorem keeps_record_advance (s : walk_state) (pos buf_size len : Nat) (n : Int) :
    keeps_record s (advance pos buf_size len n s.ies) :=
  ⟨rfl, to_u8_lt _⟩

theorem loop_body_keeps_record (buf : List Nat) (s : walk_state) (hbs2 : s.buf_size < 256)
    (hr : recognised_ie buf s = false) : keeps_record s (loop_body buf s) := by
  by_cases hbs : s.buf_size < 2
  · rw [loop_body_one_byte buf hbs]; exact rfl
  · have hbs' : 2 ≤ s.buf_size := by omega
    cases h1 : rd buf (s.pos + 1) with
    | none => rw [loop_body_oob_left hbs' h1]; exact trivial
    | some b1 =>
      cases h0 : rd buf s.pos with
      | none => rw [loop_body_oob_right hbs' h0]; exact trivial
      | some b0 =>
        unfold recognised_ie at hr
        rw [h1, h0] at hr
        simp only [] at hr
        by_cases hn : s.in_nested_mlme = 0
        · rw [if_pos hn, decide_eq_false_iff_not] at hr
          by_cases ht : b1 < 128
          · rw [loop_body_header h0 h1 hbs' hbs2 hn ht]
            by_cases c1 : b0 % 128 > s.buf_size - 2
            · rw [if_pos c1]; exact rfl
            · rw [if_neg c1, parse_header_ie_other]
              · simp only []
                split
                · exact rfl
                · split
                  · exact rfl
                  · exact keeps_record_advance s _ _ _ _
              · by_cases hid : (b0 + 256 * b1) / 128 % 256 = HEADER_IE_ACK_NACK_TIME_CORRECTION
                · right
                  have : ¬ (b0 % 128 = 2) := fun h2 => hr ⟨ht, hid, h2, by omega⟩
                  omega
                · exact Or.inl hid
          · rw [loop_body_payload h0 h1 hbs' hbs2 hn (by omega)]
            split
            · exact keeps_record_advance s _ _ _ _
            · exact keeps_record_advance s _ _ _ _
        · rw [if_neg hn] at hr
          by_cases ht : b1 < 128
          · rw [if_pos ht, decide_eq_false_iff_not] at hr
            rw [loop_body_short h0 h1 hbs' hbs2 hn ht]
            by_cases c1 : b0 > s.buf_size - 2
            · rw [if_pos c1]; exact rfl
            · rw [if_neg c1, parse_mlme_short_ie_other]
              · simp only []
                split
                · exact rfl
                · split
                  · exact rfl
                  · split
                    · exact rfl
                    · exact keeps_record_advance s _ _ _ _
              · constructor
                · by_cases hid : b1 = PAYLOAD_IE_TSCH_SYNCHRONIZATION
                  · right
                    have : ¬ (b0 = 6) := fun h2 => hr ⟨Or.inl ⟨hid, h2⟩, by omega⟩
                    omega
                  · exact Or.inl hid
                · by_cases hid : b1 = PAYLOAD_IE_TSCH_TIMESLOT
                  · right
                    have : ¬ (b0 = 1) := fun h2 => hr ⟨Or.inr ⟨hid, h2⟩, by omega⟩
                    omega
                  · exact Or.inl hid
          · rw [if_neg ht, decide_eq_false_iff_not] at hr
            rw [loop_body_long h0 h1 hbs' hbs2 hn (by omega)]
            by_cases c1 : (b0 + 256 * b1) % 2048 > s.buf_size - 2
            · rw [if_pos c1]; exact rfl
            · rw [if_neg c1, parse_mlme_long_ie_other]
              · simp only []
                split
                · exact rfl
                · split
                  · exact rfl
                  · split
                    · exact rfl
                    · exact keeps_record_advance s _ _ _ _
              · by_cases hid : (b0 + 256 * b1) / 2048 % 16
                    = PAYLOAD_IE_TSCH_CHANNEL_HOPPING_SEQUENCE
                · right
                  have : ¬ ((b0 + 256 * b1) % 2048 = 1) := fun h2 => hr ⟨hid, h2, by omega⟩
                  omega
                · exact Or.inl hid

/-! ## Failure without a recognised IE -/

/-- A run that meets no recognised IE returns the record it started from. -/
theorem parse_loop_keeps_record (buf : List Nat) :
    ∀ (fuel : Nat) (s : walk_state) (v : Int) (ies : Option ieee802154_ies),
      s.buf_size < 256 → meets_recognised_ie fuel buf s = false →
      parse_loop fuel buf s = .ret v ies → ies = s.ies := by
  intro fuel
  induction fuel with
  | zero => intro s v ies _ _ hp; simp [parse_loop] at hp
  | succ k ih =>
    intro s v ies hbs2 hm hp
    by_cases hbs : 0 < s.buf_size
    · simp only [meets_recognised_ie, gt_iff_lt, hbs, if_true, Bool.or_eq_false_iff] at hm
      obtain ⟨hr, hrest⟩ := hm
      have hk := loop_body_keeps_record buf s hbs2 hr
      cases hb : loop_body buf s with
      | next s1 =>
        rw [hb] at hk hrest
        rw [parse_loop_next _ hbs hb] at hp
        rw [ih s1 v ies hk.2 hrest hp, hk.1]
      | done o =>
        rw [hb] at hk
        rw [parse_loop_done (Nat.succ_pos _) hbs hb] at hp
        subst hp
        exact hk
    · rw [parse_loop_exit buf (Nat.succ_pos _) (by omega)] at hp
      injection hp with _ h2
      exact h2.symm

/-- C10, counterexample: on the time-correction IE for drift -5 with NACK
set, followed by one stray byte (a truncated descriptor), the walker returns
-1 after it has written `ie_time_correction` and `ie_is_nack`. -/
theorem failed_parse_has_written :
    frame802154e_parse_information_elements [0x02, 0x0f, 0xfb, 0x8f, 0x00] 5
        (some ⟨0, 0, 0, ⟨0, 0⟩, 0, 0, 0⟩)
      = .ret (-1) (some ⟨-5, 1, 0, ⟨0, 0⟩, 0, 0, 0⟩) := by
  decide

/-- C10, amended: the walker does not undo the writes of the IEs it has
parsed before a failure; if it returns -1 and has met no recognised IE (time
correction of length 2, synchronization of length 6, timeslot of length 1,
channel hopping sequence of length 1) on its way, every field of the record
equals its value before the call. -/
theorem failed_parse_without_recognised_ie_writes_nothing (buf : List Nat) (buf_size : Nat)
    (r : ieee802154_ies) (ies : Option ieee802154_ies)
    (hm : meets_recognised_ie (buf.length + 1) buf ⟨0, buf_size % 256, 0, some r⟩ = false)
    (hp : frame802154e_parse_information_elements buf buf_size (some r) = .ret (-1) ies) :
    ies = some r :=
  parse_loop_keeps_record buf _ ⟨0, buf_size % 256, 0, some r⟩ (-1) ies
    (Nat.mod_lt _ (by decide)) hm hp

theorem failed_parse_without_recognised_ie_writes_nothing_witness :
    frame802154e_parse_information_elements [0x01, 0x00, 0xaa, 0x02, 0x0f, 0xfb] 6
        (some ⟨7, 1, 0, ⟨0x12345678, 0x9A⟩, 3, 0, 0⟩)
      = .ret (-1) (some ⟨7, 1, 0, ⟨0x12345678, 0x9A⟩, 3, 0, 0⟩) ∧
    (some ⟨7, 1, 0, ⟨0x12345678, 0x9A⟩, 3, 0, 0⟩ : Option ieee802154_ies)
      = some ⟨7, 1, 0, ⟨0x12345678, 0x9A⟩, 3, 0, 0⟩ :=
  ⟨by decide,
   failed_parse_without_recognised_ie_writes_nothing [0x01, 0x00, 0xaa, 0x02, 0x0f, 0xfb] 6
     ⟨7, 1, 0, ⟨0x12345678, 0x9A⟩, 3, 0, 0⟩ _ (by decide) (by decide)⟩

/-! ## Reads inside the buffer -/

theorem rd_some {buf : List Nat} {i : Nat} (h : i < buf.length) : ∃ b, rd buf i = some b := by
  unfold rd
  rw [List.getElem?_eq_getElem h]
  exact ⟨_, rfl⟩

theorem rd_append_right (pre l : List Nat) (i : Nat) :
    rd (pre ++ l) (pre.length + i) = rd l i := by
  unfold rd
  rw [List.getElem?_append_right (by omega)]
  simp

theorem parse_mlme_short_ie_total (buf : List Nat) (p len sub_id : Nat)
    (ies : Option ieee802154_ies) (h : p + len ≤ buf.length) :
    ∃ ies1, frame802154e_parse_mlme_short_ie buf p (len : Int) sub_id ies
      = some ((len : Int), ies1) := by
  unfold frame802154e_parse_mlme_short_ie
  by_cases h1 : sub_id = PAYLOAD_IE_TSCH_SYNCHRONIZATION
  · rw [if_pos h1]
    by_cases h6 : (len : Int) = 6
    · rw [if_pos h6]
      cases ies with
      | none => exact ⟨_, rfl⟩
      | some r =>
        obtain ⟨b0, e0⟩ := @rd_some buf p (by omega)
        obtain ⟨b1, e1⟩ := @rd_some buf (p + 1) (by omega)
        obtain ⟨b2, e2⟩ := @rd_some buf (p + 2) (by omega)
        obtain ⟨b3, e3⟩ := @rd_some buf (p + 3) (by omega)
        obtain ⟨b4, e4⟩ := @rd_some buf (p + 4) (by omega)
        obtain ⟨b5, e5⟩ := @rd_some buf (p + 5) (by omega)
        simp only [e0, e1, e2, e3, e4, e5]
        exact ⟨_, rfl⟩
    · rw [if_neg h6]; exact ⟨_, rfl⟩
  · rw [if_neg h1]
    by_cases h2 : sub_id = PAYLOAD_IE_TSCH_TIMESLOT
    · rw [if_pos h2]
      by_cases h6 : (len : Int) = 1
      · rw [if_pos h6]
        cases ies with
        | none => exact ⟨_, rfl⟩
        | some r =>
          obtain ⟨b0, e0⟩ := @rd_some buf p (by omega)
          simp only [e0]
          exact ⟨_, rfl⟩
      · rw [if_neg h6]; exact ⟨_, rfl⟩
    · rw [if_neg h2]; exact ⟨_, rfl⟩

theorem parse_mlme_long_ie_total (buf : List Nat) (p len sub_id : Nat)
    (ies : Option ieee802154_ies) (h : p + len ≤ buf.length) :
    ∃ ies1, frame802154e_parse_mlme_long_ie buf p (len : Int) sub_id ies
      = some ((len : Int), ies1) := by
  unfold frame802154e_parse_mlme_long_ie
  by_cases h1 : sub_id = PAYLOAD_IE_TSCH_CHANNEL_HOPPING_SEQUENCE
  · rw [if_pos h1]
    by_cases h6 : (len : Int) = 1
    · rw [if_pos h6]
      cases ies with
      | none => exact ⟨_, rfl⟩
      | some r =>
        obtain ⟨b0, e0⟩ := @rd_some buf p (by omega)
        simp only [e0]
        exact ⟨_, rfl⟩
    · rw [if_neg h6]; exact ⟨_, rfl⟩
  · rw [if_neg h1]; exact ⟨_, rfl⟩

/-! ## Sub-IEs inside an MLME group -/

theorem sub_ies_bytes_length (subs : List sub_ie) (hc : ∀ e ∈ subs, e.complete) :
    (sub_ies_bytes subs).length = sub_ies_size subs := by
  induction subs with
  | nil => rfl
  | cons e es ih =>
    have he := hc e (List.mem_cons_self _ _)
    have := ih (fun x hx => hc x (List.mem_cons_of_mem _ hx))
    simp only [sub_ies_bytes, sub_ies_size, sub_ie.bytes, sub_ie.size, List.length_append,
      List.length_cons, this, he.2.2]
    omega

/-- An iteration inside an MLME group over a sub-IE whose payload lies
inside the buffer. -/
theorem loop_body_sub_ie {buf : List Nat} {s : walk_state} (e : sub_ie)
    (h0 : rd buf s.pos = some e.d0) (h1 : rd buf (s.pos + 1) = some e.d1)
    (hbs : 2 + e.declared_len ≤ s.buf_size) (hbs2 : s.buf_size < 256)
    (hn : s.in_nested_mlme ≠ 0) (hlen : s.pos + 2 + e.declared_len ≤ buf.length) :
    ∃ ies1, loop_body buf s =
      if e.declared_len = 0 ∨ s.in_nested_mlme < 2 + (e.declared_len : Int) then
        .done (.ret (-1) ies1)
      else if s.in_nested_mlme = 2 + (e.declared_len : Int) then
        .done (.ret ((s.pos : Int) + 2 + (e.declared_len : Int)) ies1)
      else .next ⟨s.pos + 2 + e.declared_len, s.buf_size - 2 - e.declared_len,
        s.in_nested_mlme - (2 + (e.declared_len : Int)), ies1⟩ := by
  by_cases ht : e.d1 < 128
  · have hl : e.declared_len = e.d0 := by unfold sub_ie.declared_len; rw [if_pos ht]
    rw [hl] at hbs hlen ⊢
    obtain ⟨ies1, hp⟩ := parse_mlme_short_ie_total buf (s.pos + 2) e.d0 e.d1 s.ies hlen
    refine ⟨ies1, ?_⟩
    rw [loop_body_short h0 h1 (by omega) hbs2 hn ht,
      if_neg (show ¬ (e.d0 > s.buf_size - 2) by omega), hp]
    simp only []
    by_cases c2 : e.d0 = 0
    · rw [if_pos (show (e.d0 : Int) = 0 by omega),
        if_pos (show e.d0 = 0 ∨ s.in_nested_mlme < 2 + (e.d0 : Int) from Or.inl c2)]
    · rw [if_neg (show ¬ ((e.d0 : Int) = 0) by omega)]
      by_cases c3 : s.in_nested_mlme < 2 + (e.d0 : Int)
      · rw [if_pos (show s.in_nested_mlme - (2 + (e.d0 : Int)) < 0 by omega),
          if_pos (show e.d0 = 0 ∨ s.in_nested_mlme < 2 + (e.d0 : Int) from Or.inr c3)]
      · rw [if_neg (show ¬ (s.in_nested_mlme - (2 + (e.d0 : Int)) < 0) by omega),
          if_neg (show ¬ (e.d0 = 0 ∨ s.in_nested_mlme < 2 + (e.d0 : Int)) by tauto)]
        by_cases c4 : s.in_nested_mlme = 2 + (e.d0 : Int)
        · rw [if_pos (show s.in_nested_mlme - (2 + (e.d0 : Int)) = 0 by omega), if_pos c4]
          congr 2
        · rw [if_neg (show ¬ (s.in_nested_mlme - (2 + (e.d0 : Int)) = 0) by omega), if_neg c4,
            advance_eq _ _ (by omega) (by omega)]
  · have hl : e.declared_len = (e.d0 + 256 * e.d1) % 2048 := by
      unfold sub_ie.declared_len; rw [if_neg ht]
    rw [hl] at hbs hlen ⊢
    generalize hL : (e.d0 + 256 * e.d1) % 2048 = L at hbs hlen ⊢
    obtain ⟨ies1, hp⟩ := parse_mlme_long_ie_total buf (s.pos + 2) L
      ((e.d0 + 256 * e.d1) / 2048 % 16) s.ies hlen
    refine ⟨ies1, ?_⟩
    rw [loop_body_long h0 h1 (by omega) hbs2 hn (by omega), hL,
      if_neg (show ¬ (L > s.buf_size - 2) by omega), hp]
    simp only []
    by_cases c2 : L = 0
    · rw [if_pos (show (L : Int) = 0 by omega),
        if_pos (show L = 0 ∨ s.in_nested_mlme < 2 + (L : Int) from Or.inl c2)]
    · rw [if_neg (show ¬ ((L : Int) = 0) by omega)]
      by_cases c3 : s.in_nested_mlme < 2 + (L : Int)
      · rw [if_pos (show s.in_nested_mlme - (2 + (L : Int)) < 0 by omega),
          if_pos (show L = 0 ∨ s.in_nested_mlme < 2 + (L : Int) from Or.inr c3)]
      · rw [if_neg (show ¬ (s.in_nested_mlme - (2 + (L : Int)) < 0) by omega),
          if_neg (show ¬ (L = 0 ∨ s.in_nested_mlme < 2 + (L : Int)) by tauto)]
        by_cases c4 : s.in_nested_mlme = 2 + (L : Int)
        · rw [if_pos (show s.in_nested_mlme - (2 + (L : Int)) = 0 by omega), if_pos c4]
          congr 2
        · rw [if_neg (show ¬ (s.in_nested_mlme - (2 + (L : Int)) = 0) by omega), if_neg c4,
            advance_eq _ _ (by omega) (by omega)]

theorem sub_ies_size_take_succ (e : sub_ie) (es : List sub_ie) (k : Nat) :
    sub_ies_size ((e :: es).take (k + 1)) = e.size + sub_ies_size (es.take k) := rfl

/-- The walker inside an MLME group with `n` bytes left of the group, on a
sequence of complete sub-IEs whose sizes sum to more than `n` and of which no
initial part has sizes summing to exactly `n`, returns -1. -/
theorem parse_loop_nested_overrun (subs : List sub_ie) :
    ∀ (pre : List Nat) (fuel : Nat) (n : Int) (ies : Option ieee802154_ies),
      (∀ e ∈ subs, e.complete) → sub_ies_size subs < 256 → 0 < n →
      n < (sub_ies_size subs : Int) →
      (∀ k, k ≤ subs.length → (sub_ies_size (subs.take k) : Int) ≠ n) →
      subs.length < fuel →
      ∃ ies1, parse_loop fuel (pre ++ sub_ies_bytes subs)
        ⟨pre.length, sub_ies_size subs, n, ies⟩ = .ret (-1) ies1 := by
  induction subs with
  | nil =>
    intro pre fuel n ies _ _ hpos hlt _ _
    simp only [sub_ies_size] at hlt
    omega
  | cons e es ih =>
    intro pre fuel n ies hc hsz hpos hlt hpre hfuel
    obtain ⟨k, rfl⟩ := Nat.exists_eq_succ_of_ne_zero (Nat.pos_iff_ne_zero.mp (by omega : 0 < fuel))
    have he := hc e (List.mem_cons_self _ _)
    have hces : ∀ x ∈ es, x.complete := fun x hx => hc x (List.mem_cons_of_mem _ hx)
    have hlen_es := sub_ies_bytes_length es hces
    simp only [sub_ies_size, sub_ie.size] at hsz hlt
    have hd0 : rd (pre ++ sub_ies_bytes (e :: es)) pre.length = some e.d0 := by
      have := rd_append_right pre (sub_ies_bytes (e :: es)) 0
      rw [Nat.add_zero] at this
      rw [this]
      simp [sub_ies_bytes, sub_ie.bytes, rd, Nat.mod_eq_of_lt he.1]
    have hd1 : rd (pre ++ sub_ies_bytes (e :: es)) (pre.length + 1) = some e.d1 := by
      rw [rd_append_right]
      simp [sub_ies_bytes, sub_ie.bytes, rd, Nat.mod_eq_of_lt he.2.1]
    have hbuflen : (pre ++ sub_ies_bytes (e :: es)).length
        = pre.length + 2 + e.declared_len + sub_ies_size es := by
      simp only [sub_ies_bytes, sub_ie.bytes, List.length_append, List.length_cons, hlen_es,
        he.2.2]
      omega
    obtain ⟨ies1, hbody⟩ := @loop_body_sub_ie (pre ++ sub_ies_bytes (e :: es))
      ⟨pre.length, sub_ies_size (e :: es), n, ies⟩ e hd0 hd1
      (by simp only [sub_ies_size, sub_ie.size]; omega)
      (by simp only [sub_ies_size, sub_ie.size]; omega)
      (by simp only []; omega) (by rw [hbuflen]; simp only []; omega)
    have hbs : 0 < (walk_state.mk pre.length (sub_ies_size (e :: es)) n ies).buf_size := by
      simp only [sub_ies_size, sub_ie.size]; omega
    simp only [] at hbody
    by_cases c1 : e.declared_len = 0 ∨ n < 2 + (e.declared_len : Int)
    · rw [if_pos c1] at hbody
      exact ⟨ies1, parse_loop_done (Nat.succ_pos _) hbs hbody⟩
    · rw [if_neg c1] at hbody
      have h1 := hpre 1 (by simp)
      rw [show (1 : Nat) = 0 + 1 from rfl, sub_ies_size_take_succ] at h1
      simp only [List.take_zero, sub_ies_size, sub_ie.size, Nat.add_zero] at h1
      rw [if_neg (by omega)] at hbody
      rw [parse_loop_next _ hbs hbody]
      have hih := ih (pre ++ e.bytes) k (n - (2 + (e.declared_len : Int))) ies1 hces
        (by omega) (by omega) (by omega)
        (by
          intro j hj
          have hj1 := hpre (j + 1) (by simp; omega)
          rw [sub_ies_size_take_succ] at hj1
          simp only [sub_ie.size] at hj1
          omega)
        (by simp only [List.length_cons] at hfuel; omega)
      have e1 : (pre ++ e.bytes).length = pre.length + 2 + e.declared_len := by
        simp only [sub_ie.bytes, List.length_append, List.length_cons, he.2.2]
        omega
      have e2 : pre ++ sub_ies_bytes (e :: es) = (pre ++ e.bytes) ++ sub_ies_bytes es := by
        simp only [sub_ies_bytes, List.append_assoc]
      have e3 : sub_ies_size (e :: es) - 2 - e.declared_len = sub_ies_size es := by
        simp only [sub_ies_size, sub_ie.size]; omega
      rw [e2, e3, ← e1]
      exact hih

theorem mem_take_succ_cons {e x : sub_ie} {es : List sub_ie} {k : Nat} :
    x ∈ (e :: es).take (k + 1) ↔ x = e ∨ x ∈ es.take k := by
  simp only [List.take_succ_cons, List.mem_cons]

/-- The walker inside an MLME group with `n` bytes left of the group, on a
sequence of complete sub-IEs whose sizes sum to more than `n`: it returns the
index `n` bytes further on when some initial part of the sequence, made of
sub-IEs of non-zero declared length, has sizes summing to exactly `n`, and
-1 otherwise. -/
theorem parse_loop_nested_group (subs : List sub_ie) :
    ∀ (pre : List Nat) (fuel : Nat) (n : Int) (ies : Option ieee802154_ies),
      (∀ e ∈ subs, e.complete) → sub_ies_size subs < 256 → 0 < n →
      n < (sub_ies_size subs : Int) → subs.length < fuel →
      ∃ ies1,
        ((∃ k, k ≤ subs.length ∧ (sub_ies_size (subs.take k) : Int) = n ∧
            ∀ e ∈ subs.take k, e.declared_len ≠ 0) →
          parse_loop fuel (pre ++ sub_ies_bytes subs)
            ⟨pre.length, sub_ies_size subs, n, ies⟩ = .ret ((pre.length : Int) + n) ies1) ∧
        ((¬ ∃ k, k ≤ subs.length ∧ (sub_ies_size (subs.take k) : Int) = n ∧
            ∀ e ∈ subs.take k, e.declared_len ≠ 0) →
          parse_loop fuel (pre ++ sub_ies_bytes subs)
            ⟨pre.length, sub_ies_size subs, n, ies⟩ = .ret (-1) ies1) := by
  induction subs with
  | nil =>
    intro pre fuel n ies _ _ hpos hlt _
    simp only [sub_ies_size] at hlt
    omega
  | cons e es ih =>
    intro pre fuel n ies hc hsz hpos hlt hfuel
    obtain ⟨f, rfl⟩ := Nat.exists_eq_succ_of_ne_zero (Nat.pos_iff_ne_zero.mp (by omega : 0 < fuel))
    have he := hc e (List.mem_cons_self _ _)
    have hces : ∀ x ∈ es, x.complete := fun x hx => hc x (List.mem_cons_of_mem _ hx)
    have hlen_es := sub_ies_bytes_length es hces
    simp only [sub_ies_size, sub_ie.size] at hsz hlt
    have hd0 : rd (pre ++ sub_ies_bytes (e :: es)) pre.length = some e.d0 := by
      have := rd_append_right pre (sub_ies_bytes (e :: es)) 0
      rw [Nat.add_zero] at this
      rw [this]
      simp [sub_ies_bytes, sub_ie.bytes, rd, Nat.mod_eq_of_lt he.1]
    have hd1 : rd (pre ++ sub_ies_bytes (e :: es)) (pre.length + 1) = some e.d1 := by
      rw [rd_append_right]
      simp [sub_ies_bytes, sub_ie.bytes, rd, Nat.mod_eq_of_lt he.2.1]
    have hbuflen : (pre ++ sub_ies_bytes (e :: es)).length
        = pre.length + 2 + e.declared_len + sub_ies_size es := by
      simp only [sub_ies_bytes, sub_ie.bytes, List.length_append, List.length_cons, hlen_es,
        he.2.2]
      omega
    obtain ⟨ies1, hbody⟩ := @loop_body_sub_ie (pre ++ sub_ies_bytes (e :: es))
      ⟨pre.length, sub_ies_size (e :: es), n, ies⟩ e hd0 hd1
      (by simp only [sub_ies_size, sub_ie.size]; omega)
      (by simp only [sub_ies_size, sub_ie.size]; omega)
      (by simp only []; omega) (by rw [hbuflen]; simp only []; omega)
    have hbs : 0 < (walk_state.mk pre.length (sub_ies_size (e :: es)) n ies).buf_size := by
      simp only [sub_ies_size, sub_ie.size]; omega
    simp only [] at hbody
    -- every initial part that fills the group holds the first sub-IE
    have hfirst : ∀ k, k ≤ (e :: es).length →
        (sub_ies_size ((e :: es).take k) : Int) = n →
        ∃ j, k = j + 1 ∧ j ≤ es.length ∧
          (sub_ies_size (es.take j) : Int) = n - (2 + (e.declared_len : Int)) := by
      intro k hk hs
      cases k with
      | zero =>
        simp only [List.take_zero, sub_ies_size] at hs
        omega
      | succ j =>
        refine ⟨j, rfl, by simpa using hk, ?_⟩
        rw [sub_ies_size_take_succ] at hs
        simp only [sub_ie.size] at hs
        omega
    by_cases c1 : e.declared_len = 0 ∨ n < 2 + (e.declared_len : Int)
    · rw [if_pos c1] at hbody
      refine ⟨ies1, ?_, fun _ => parse_loop_done (Nat.succ_pos _) hbs hbody⟩
      rintro ⟨k, hk, hs, hnz⟩
      exfalso
      obtain ⟨j, rfl, _, hj⟩ := hfirst k hk hs
      have h0 := hnz e (mem_take_succ_cons.mpr (Or.inl rfl))
      rcases c1 with c1 | c1
      · exact h0 c1
      · omega
    · rw [if_neg c1] at hbody
      have hdl : e.declared_len ≠ 0 := fun h => c1 (Or.inl h)
      by_cases c2 : n = 2 + (e.declared_len : Int)
      · rw [if_pos c2] at hbody
        refine ⟨ies1, fun _ => ?_, fun hno => ?_⟩
        · rw [parse_loop_done (Nat.succ_pos _) hbs hbody, c2]
          congr 1
          omega
        · exfalso
          apply hno
          refine ⟨1, by simp, ?_, ?_⟩
          · rw [show (1 : Nat) = 0 + 1 from rfl, sub_ies_size_take_succ]
            simp only [List.take_zero, sub_ies_size, sub_ie.size, Nat.add_zero]
            omega
          · intro x hx
            rw [show (1 : Nat) = 0 + 1 from rfl] at hx
            rcases mem_take_succ_cons.mp hx with hx | hx
            · rw [hx]; exact hdl
            · simp at hx
      · rw [if_neg c2] at hbody
        rw [parse_loop_next _ hbs hbody]
        obtain ⟨ies2, hyes, hno⟩ := ih (pre ++ e.bytes) f (n - (2 + (e.declared_len : Int))) ies1
          hces (by omega) (by omega) (by omega)
          (by simp only [List.length_cons] at hfuel; omega)
        have e1 : (pre ++ e.bytes).length = pre.length + 2 + e.declared_len := by
          simp only [sub_ie.bytes, List.length_append, List.length_cons, he.2.2]
          omega
        have e2 : pre ++ sub_ies_bytes (e :: es) = (pre ++ e.bytes) ++ sub_ies_bytes es := by
          simp only [sub_ies_bytes, List.append_assoc]
        have e3 : sub_ies_size (e :: es) - 2 - e.declared_len = sub_ies_size es := by
          simp only [sub_ies_size, sub_ie.size]; omega
        have e4 : (((pre ++ e.bytes).length : Nat) : Int) + (n - (2 + (e.declared_len : Int)))
            = (pre.length : Int) + n := by
          rw [e1]; push_cast; omega
        rw [e2, e3, ← e1]
        refine ⟨ies2, ?_, ?_⟩
        · rintro ⟨k, hk, hs, hnz⟩
          obtain ⟨j, rfl, hj, hjs⟩ := hfirst k hk hs
          rw [← e4]
          exact hyes ⟨j, hj, hjs, fun x hx => hnz x (mem_take_succ_cons.mpr (Or.inr hx))⟩
        · intro hnone
          apply hno
          rintro ⟨j, hj, hjs, hnz⟩
          apply hnone
          refine ⟨j + 1, by simpa using hj, ?_, ?_⟩
          · rw [sub_ies_size_take_succ]
            simp only [sub_ie.size]
            push_cast
            omega
          · intro x hx
            rcases mem_take_succ_cons.mp hx with hx | hx
            · rw [hx]; exact hdl
            · exact hnz x hx

/-! ## Overrun of a nested MLME group -/

theorem sub_ies_length_le_size (subs : List sub_ie) : subs.length ≤ sub_ies_size subs := by
  induction subs with
  | nil => exact Nat.le_refl _
  | cons e es ih =>
    simp only [List.length_cons, sub_ies_size, sub_ie.size]
    omega

/-- C7, counterexample: an MLME payload IE of declared length 3 followed by
two complete short sub-IEs of size 3 each (sizes summing to 6, more than 3)
is not rejected: the first sub-IE fills the group exactly and the walker
returns 5. -/
theorem nested_group_overrun_not_rejected :
    frame802154e_parse_information_elements
        [0x03, 0x88, 0x01, 0x1c, 7, 0x01, 0x1c, 9] 8 none = .ret 5 none := by
  decide

/-- C7, amended: a buffer made of an MLME payload IE (group id 1) of declared
length `L`, `0 < L`, followed by complete sub-IEs whose sizes sum to more than
`L`. The walker returns -1 when no initial part of the sequence has sizes that
sum to exactly `L`; more generally it returns `2 + L`, the index of the end of
the group, when some initial part made only of sub-IEs of non-zero declared
length has sizes that sum to exactly `L`, and -1 in every other case. -/
theorem nested_group_overrun_is_rejected (L : Nat) (subs : List sub_ie)
    (ies : Option ieee802154_ies)
    (hL0 : 0 < L) (hL : L < 2048) (hc : ∀ e ∈ subs, e.complete)
    (htot : 2 + sub_ies_size subs ≤ 255) (hover : L < sub_ies_size subs) :
    ∃ ies1,
      ((∀ k, k ≤ subs.length → sub_ies_size (subs.take k) ≠ L) →
        frame802154e_parse_information_elements
          (L % 256 :: (136 + L / 256) :: sub_ies_bytes subs) (2 + sub_ies_size subs) ies
            = .ret (-1) ies1) ∧
      ((∃ k, k ≤ subs.length ∧ sub_ies_size (subs.take k) = L ∧
          ∀ e ∈ subs.take k, e.declared_len ≠ 0) →
        frame802154e_parse_information_elements
          (L % 256 :: (136 + L / 256) :: sub_ies_bytes subs) (2 + sub_ies_size subs) ies
            = .ret (2 + (L : Int)) ies1) ∧
      ((¬ ∃ k, k ≤ subs.length ∧ sub_ies_size (subs.take k) = L ∧
          ∀ e ∈ subs.take k, e.declared_len ≠ 0) →
        frame802154e_parse_information_elements
          (L % 256 :: (136 + L / 256) :: sub_ies_bytes subs) (2 + sub_ies_size subs) ies
            = .ret (-1) ies1) := by
  have hmod : (2 + sub_ies_size subs) % 256 = 2 + sub_ies_size subs := Nat.mod_eq_of_lt (by omega)
  have hstep := @loop_body_mlme (L % 256 :: (136 + L / 256) :: sub_ies_bytes subs)
    ⟨0, 2 + sub_ies_size subs, 0, ies⟩ (L % 256) (136 + L / 256)
    (by simp [rd]) (by simp [rd]; omega) (by simp) (by simp only []; omega) rfl (by omega)
    (by omega)
  have hval : (L % 256 + 256 * (136 + L / 256)) % 2048 = L := by omega
  rw [hval] at hstep
  simp only [Nat.zero_add, Nat.add_sub_cancel_left] at hstep
  obtain ⟨ies1, hyes, hno⟩ := parse_loop_nested_group subs [L % 256, 136 + L / 256]
    (2 + (sub_ies_bytes subs).length) (L : Int) ies hc (by omega) (by omega) (by omega)
    (by rw [sub_ies_bytes_length subs hc]; have := sub_ies_length_le_size subs; omega)
  have hwalk : frame802154e_parse_information_elements
      (L % 256 :: (136 + L / 256) :: sub_ies_bytes subs) (2 + sub_ies_size subs) ies
      = parse_loop (2 + (sub_ies_bytes subs).length)
          ([L % 256, 136 + L / 256] ++ sub_ies_bytes subs)
          ⟨[L % 256, 136 + L / 256].length, sub_ies_size subs, (L : Int), ies⟩ := by
    unfold frame802154e_parse_information_elements
    rw [hmod, show (L % 256 :: (136 + L / 256) :: sub_ies_bytes subs).length
        = (2 + (sub_ies_bytes subs).length - 1) + 1 by simp only [List.length_cons]; omega,
      parse_loop_next _ (by simp) hstep]
    rw [show 2 + (sub_ies_bytes subs).length - 1 + 1 = 2 + (sub_ies_bytes subs).length by omega]
    rfl
  rw [hwalk]
  refine ⟨ies1, fun hpre => hno ?_, fun hex => ?_, fun hnone => hno ?_⟩
  · rintro ⟨k, hk, hs, _⟩
    exact hpre k hk (by exact_mod_cast hs)
  · obtain ⟨k, hk, hs, hnz⟩ := hex
    have := hyes ⟨k, hk, by exact_mod_cast hs, hnz⟩
    rw [this]
    rfl
  · rintro ⟨k, hk, hs, hnz⟩
    exact hnone ⟨k, hk, by exact_mod_cast hs, hnz⟩

theorem nested_group_overrun_is_rejected_witness :
    (∃ ies1, frame802154e_parse_information_elements
      (3 % 256 :: (136 + 3 / 256) :: sub_ies_bytes [⟨0x02, 0x1c, [7, 8]⟩])
      (2 + sub_ies_size [⟨0x02, 0x1c, [7, 8]⟩]) none = .ret (-1) ies1) ∧
    (∃ ies1, frame802154e_parse_information_elements
      (3 % 256 :: (136 + 3 / 256) :: sub_ies_bytes [⟨0x01, 0x1c, [7]⟩, ⟨0x01, 0x1c, [9]⟩])
      (2 + sub_ies_size [⟨0x01, 0x1c, [7]⟩, ⟨0x01, 0x1c, [9]⟩]) none
        = .ret (2 + ((3 : Nat) : Int)) ies1) :=
  ⟨(nested_group_overrun_is_rejected 3 [⟨0x02, 0x1c, [7, 8]⟩] none (by decide) (by decide)
      (by intro e he; simp only [List.mem_singleton] at he; subst he;
          exact ⟨by decide, by decide, rfl⟩)
      (by decide) (by decide)).imp
      (fun _ h => h.1
        (by intro k hk; simp only [List.length_singleton] at hk; interval_cases k <;> decide)),
   (nested_group_overrun_is_rejected 3 [⟨0x01, 0x1c, [7]⟩, ⟨0x01, 0x1c, [9]⟩] none
      (by decide) (by decide)
      (by intro e he; simp only [List.mem_cons, List.mem_singleton, List.not_mem_nil,
            or_false] at he
          rcases he with he | he <;> subst he <;> exact ⟨by decide, by decide, rfl⟩)
      (by decide) (by decide)).imp
      (fun _ h => h.2.1 ⟨1, by decide, by decide, by decide⟩)⟩

/-! ## Termination of the walker -/

theorem rd_index_lt {buf : List Nat} {i b : Nat} (h : rd buf i = some b) : i < buf.length := by
  by_contra hge
  unfold rd at h
  rw [List.getElem?_eq_none (by omega)] at h
  simp at h

theorem iteration_ends_advance (buf : List Nat) (s : walk_state) (buf_size len : Nat)
    (n : Int) (ies : Option ieee802154_ies) (h : s.pos + 1 < buf.length) :
    iteration_ends buf s (advance (s.pos + 2) buf_size len n ies) :=
  ⟨by simp only []; omega, h, to_u8_lt _⟩

theorem loop_body_ends (buf : List Nat) (s : walk_state) (hbs2 : s.buf_size < 256) :
    iteration_ends buf s (loop_body buf s) := by
  by_cases hbs : s.buf_size < 2
  · rw [loop_body_one_byte buf hbs]; exact trivial
  · have hbs' : 2 ≤ s.buf_size := by omega
    cases h1 : rd buf (s.pos + 1) with
    | none => rw [loop_body_oob_left hbs' h1]; exact trivial
    | some b1 =>
      cases h0 : rd buf s.pos with
      | none => rw [loop_body_oob_right hbs' h0]; exact trivial
      | some b0 =>
        have hin := rd_index_lt h1
        by_cases hn : s.in_nested_mlme = 0
        · by_cases ht : b1 < 128
          · rw [loop_body_header h0 h1 hbs' hbs2 hn ht]
            split
            · exact trivial
            · split
              · exact trivial
              · split
                · exact trivial
                · split
                  · exact trivial
                  · exact iteration_ends_advance buf s _ _ _ _ hin
          · rw [loop_body_payload h0 h1 hbs' hbs2 hn (by omega)]
            split
            · exact iteration_ends_advance buf s _ _ _ _ hin
            · exact iteration_ends_advance buf s _ _ _ _ hin
        · by_cases ht : b1 < 128
          · rw [loop_body_short h0 h1 hbs' hbs2 hn ht]
            split
            · exact trivial
            · split
              · exact trivial
              · split
                · exact trivial
                · split
                  · exact trivial
                  · split
                    · exact trivial
                    · exact iteration_ends_advance buf s _ _ _ _ hin
          · rw [loop_body_long h0 h1 hbs' hbs2 hn (by omega)]
            split
            · exact trivial
            · split
              · exact trivial
              · split
                · exact trivial
                · split
                  · exact trivial
                  · split
                    · exact trivial
                    · exact iteration_ends_advance buf s _ _ _ _ hin

/-- The iteration budget is never exhausted when it is at least one more than
half the number of bytes between the pointer and the end of the buffer
object. -/
theorem parse_loop_fuel_suffices (buf : List Nat) :
    ∀ (fuel : Nat) (s : walk_state), s.buf_size < 256 →
      (buf.length - s.pos) / 2 + 1 ≤ fuel → parse_loop fuel buf s ≠ .nofuel := by
  intro fuel
  induction fuel with
  | zero => intro s _ h; omega
  | succ k ih =>
    intro s hbs2 hf
    by_cases hbs : 0 < s.buf_size
    · have hk := loop_body_ends buf s hbs2
      cases hb : loop_body buf s with
      | next s1 =>
        rw [hb] at hk
        rw [parse_loop_next _ hbs hb]
        exact ih s1 hk.2.2 (by have := hk.1; have := hk.2.1; omega)
      | done o =>
        rw [hb] at hk
        rw [parse_loop_done (Nat.succ_pos _) hbs hb]
        intro ho
        rw [ho] at hk
        exact hk
    · rw [parse_loop_exit buf (Nat.succ_pos _) (by omega)]
      intro h; cases h

/-- The walker always ends with a return or with a read outside the buffer
object: the budget `buf.length + 1` of the definition is never exhausted. -/
theorem parse_information_elements_ends (buf : List Nat) (buf_size : Nat)
    (ies : Option ieee802154_ies) :
    frame802154e_parse_information_elements buf buf_size ies ≠ .nofuel :=
  parse_loop_fuel_suffices buf _ ⟨0, buf_size % 256, 0, ies⟩ (Nat.mod_lt _ (by decide))
    (by simp only [Nat.sub_zero]; omega)

/-! ## Truncation that the walker reports -/

/-- With exactly one byte left the walker returns -1. -/
theorem truncated_descriptor_is_reported (buf : List Nat) (s : walk_state) (fuel : Nat)
    (h : s.buf_size = 1) : parse_loop (fuel + 1) buf s = .ret (-1) s.ies :=
  parse_loop_done (Nat.succ_pos _) (by omega) (loop_body_one_byte buf (by omega))

/-- A header IE whose declared length exceeds the bytes left after its
descriptor makes the walker return -1. -/
theorem truncated_header_ie_is_reported {buf : List Nat} {s : walk_state} {b0 b1 : Nat}
    (fuel : Nat) (h0 : rd buf s.pos = some b0) (h1 : rd buf (s.pos + 1) = some b1)
    (hbs : 2 ≤ s.buf_size) (hbs2 : s.buf_size < 256)
    (hn : s.in_nested_mlme = 0) (ht : b1 < 128) (hl : s.buf_size - 2 < b0 % 128) :
    parse_loop (fuel + 1) buf s = .ret (-1) s.ies := by
  have hb := loop_body_header h0 h1 hbs hbs2 hn ht
  rw [if_pos hl] at hb
  exact parse_loop_done (Nat.succ_pos _) (by omega) hb

/-- A short sub-IE whose declared length exceeds the bytes left after its
descriptor makes the walker return -1. -/
theorem truncated_short_sub_ie_is_reported {buf : List Nat} {s : walk_state} {b0 b1 : Nat}
    (fuel : Nat) (h0 : rd buf s.pos = some b0) (h1 : rd buf (s.pos + 1) = some b1)
    (hbs : 2 ≤ s.buf_size) (hbs2 : s.buf_size < 256)
    (hn : s.in_nested_mlme ≠ 0) (ht : b1 < 128) (hl : s.buf_size - 2 < b0) :
    parse_loop (fuel + 1) buf s = .ret (-1) s.ies := by
  have hb := loop_body_short h0 h1 hbs hbs2 hn ht
  rw [if_pos hl] at hb
  exact parse_loop_done (Nat.succ_pos _) (by omega) hb

/-- A long sub-IE whose declared length exceeds the bytes left after its
descriptor makes the walker return -1. -/
theorem truncated_long_sub_ie_is_reported {buf : List Nat} {s : walk_state} {b0 b1 : Nat}
    (fuel : Nat) (h0 : rd buf s.pos = some b0) (h1 : rd buf (s.pos + 1) = some b1)
    (hbs : 2 ≤ s.buf_size) (hbs2 : s.buf_size < 256)
    (hn : s.in_nested_mlme ≠ 0) (ht : 128 ≤ b1)
    (hl : s.buf_size - 2 < (b0 + 256 * b1) % 2048) :
    parse_loop (fuel + 1) buf s = .ret (-1) s.ies := by
  have hb := loop_body_long h0 h1 hbs hbs2 hn ht
  rw [if_pos hl] at hb
  exact parse_loop_done (Nat.succ_pos _) (by omega) hb

/-! ## Return values of the encoders -/

/-- C11: each encoder returns `2 + P` (P = 2, 0, 6, 1, 1 for time correction,
MLME, synchronization, timeslot, channel hopping sequence) when the capacity
`len` is at least `2 + P` and the record is present, and -1 otherwise; the
slotframe-and-link encoder returns -1 for every capacity and record. -/
theorem encoders_return_value (buf : List Nat) (p : Nat) (len : Int)
    (ies : Option ieee802154_ies) :
    (frame80215e_create_ie_ack_nack_time_correction buf p len ies).1
      = (if len ≥ 2 + 2 ∧ ies ≠ none then 2 + 2 else -1) ∧
    (frame80215e_create_ie_mlme buf p len ies).1
      = (if len ≥ 2 + 0 ∧ ies ≠ none then 2 + 0 else -1) ∧
    (frame80215e_create_ie_tsch_synchronization buf p len ies).1
      = (if len ≥ 2 + 6 ∧ ies ≠ none then 2 + 6 else -1) ∧
    (frame80215e_create_ie_tsch_timeslot buf p len ies).1
      = (if len ≥ 2 + 1 ∧ ies ≠ none then 2 + 1 else -1) ∧
    (frame80215e_create_ie_tsch_channel_hopping_sequence buf p len ies).1
      = (if len ≥ 2 + 1 ∧ ies ≠ none then 2 + 1 else -1) ∧
    (frame80215e_create_ie_tsch_slotframe_and_link buf p len ies).1 = -1 := by
  refine ⟨?_, ?_, ?_, ?_, ?_, rfl⟩
  · unfold frame80215e_create_ie_ack_nack_time_correction
    cases ies <;> by_cases h : (4 : Int) ≤ len <;> simp [h]
  · unfold frame80215e_create_ie_mlme
    cases ies <;> by_cases h : (2 : Int) ≤ len <;> simp [h]
  · unfold frame80215e_create_ie_tsch_synchronization
    cases ies <;> by_cases h : (8 : Int) ≤ len <;> simp [h]
  · unfold frame80215e_create_ie_tsch_timeslot
    cases ies <;> by_cases h : (3 : Int) ≤ len <;> simp [h]
  · unfold frame80215e_create_ie_tsch_channel_hopping_sequence
    cases ies <;> by_cases h : (3 : Int) ≤ len <;> simp [h]

/-! ## Output of the synchronization encoder -/

theorem sync_desc_const :
    to_u16 (((int_bits 6 &&& 0xff) + ((0x1a &&& 0x7f) <<< 8) : Nat) : Int) = 6662 := by
  decide

/-- Byte at index `j` of the buffer after the synchronization encoder has
run at index `p` with enough capacity. -/
theorem sync_encode_getElem? (buf : List Nat) (p : Nat) (len : Int) (r : ieee802154_ies)
    (hlen : 8 ≤ len) (hbuf : p + 8 ≤ buf.length) (j : Nat) :
    (frame80215e_create_ie_tsch_synchronization buf p len (some r)).2[j]? =
      if j = p then some 0x06
      else if j = p + 1 then some 0x1a
      else if j = p + 2 then some (r.ie_asn.ls4b % 256)
      else if j = p + 3 then some (r.ie_asn.ls4b >>> 8 % 256)
      else if j = p + 4 then some (r.ie_asn.ls4b >>> 16 % 256)
      else if j = p + 5 then some (r.ie_asn.ls4b >>> 24 % 256)
      else if j = p + 6 then some (r.ie_asn.ms1b % 256)
      else if j = p + 7 then some (r.ie_join_priority % 256)
      else buf[j]? := by
  unfold frame80215e_create_ie_tsch_synchronization create_mlme_short_ie_descriptor
    PAYLOAD_IE_TSCH_SYNCHRONIZATION
  simp only []
  rw [sync_desc_const, if_pos (by omega)]
  simp only [to_u8_cast, List.getElem?_set, List.length_set]
  have e1 : (6662 : Nat) &&& 0xff = 6 := by decide
  have e2 : ((6662 : Nat) >>> 8) &&& 0xff = 26 := by decide
  rw [e1, e2]
  have hj : j = p ∨ j = p + 1 ∨ j = p + 2 ∨ j = p + 3 ∨ j = p + 4 ∨ j = p + 5 ∨ j = p + 6 ∨
      j = p + 7 ∨ (j < p ∨ p + 8 ≤ j) := by omega
  rcases hj with h | h | h | h | h | h | h | h | h <;>
    simp (disch := omega) only [if_pos, if_neg]

/-- C12: with capacity `len >= 8` and a present record the synchronization
encoder leaves the 8 bytes from the pointer on equal to `0x06, 0x1a`, the four
bytes of the ASN low part in little-endian order, the ASN high part and the
join priority, and leaves every other byte of the buffer as it was; with
`len < 8` or an absent record it changes no byte. -/
theorem synchronization_encoder_output (buf : List Nat) (p : Nat) (len : Int)
    (r : ieee802154_ies) (hbuf : p + 8 ≤ buf.length)
    (hms : r.ie_asn.ms1b < 256) (hjp : r.ie_join_priority < 256) :
    (8 ≤ len →
      ((frame80215e_create_ie_tsch_synchronization buf p len (some r)).2.drop p).take 8
        = [0x06, 0x1a, r.ie_asn.ls4b % 256, r.ie_asn.ls4b >>> 8 % 256,
            r.ie_asn.ls4b >>> 16 % 256, r.ie_asn.ls4b >>> 24 % 256,
            r.ie_asn.ms1b, r.ie_join_priority] ∧
      (∀ j, j < p ∨ p + 8 ≤ j →
        (frame80215e_create_ie_tsch_synchronization buf p len (some r)).2[j]? = buf[j]?) ∧
      (frame80215e_create_ie_tsch_synchronization buf p len (some r)).2.length = buf.length) ∧
    (∀ ies, len < 8 ∨ ies = none →
      (frame80215e_create_ie_tsch_synchronization buf p len ies).2 = buf) := by
  constructor
  · intro hlen
    refine ⟨?_, ?_, ?_⟩
    · apply List.ext_getElem?
      intro n
      rw [List.getElem?_take, List.getElem?_drop, sync_encode_getElem? buf p len r hlen hbuf]
      by_cases hn : n < 8
      · rw [if_pos hn]
        interval_cases n <;>
          simp (disch := omega) only [if_pos, if_neg, Nat.add_zero, Nat.mod_eq_of_lt hms,
            Nat.mod_eq_of_lt hjp] <;> rfl
      · rw [if_neg hn]
        exact (List.getElem?_eq_none (by
          simp only [List.length_cons, List.length_nil]
          omega)).symm
    · intro j hj
      rw [sync_encode_getElem? buf p len r hlen hbuf]
      simp (disch := omega) only [if_neg]
    · unfold frame80215e_create_ie_tsch_synchronization create_mlme_short_ie_descriptor
      simp only []
      rw [if_pos (by omega)]
      simp only [List.length_set]
  · intro ies h
    unfold frame80215e_create_ie_tsch_synchronization
    rcases h with h | h
    · simp only []
      rw [if_neg (by omega)]
    · subst h
      simp only []
      split <;> rfl

theorem synchronization_encoder_output_witness :
    ((frame80215e_create_ie_tsch_synchronization [0, 0, 0, 0, 0, 0, 0, 0, 0xee] 0 8
        (some ⟨0, 0, 0, ⟨0x12345678, 0x9A⟩, 3, 0, 0⟩)).2.drop 0).take 8
      = [0x06, 0x1a, 0x78, 0x56, 0x34, 0x12, 0x9A, 3] :=
  ((synchronization_encoder_output [0, 0, 0, 0, 0, 0, 0, 0, 0xee] 0 8
    ⟨0, 0, 0, ⟨0x12345678, 0x9A⟩, 3, 0, 0⟩ (by decide) (by decide) (by decide)).1
      (by decide)).1

/-! ## Layout of the descriptors -/

theorem int_bits_and_7f (x : Int) : int_bits x &&& 0x7f = (x % 128).toNat := by
  have h := Nat.and_pow_two_sub_one_eq_mod (int_bits x) 7
  norm_num at h
  rw [h]; unfold int_bits; omega

theorem int_bits_and_ff (x : Int) : int_bits x &&& 0xff = (x % 256).toNat := by
  rw [low_byte]; unfold int_bits; omega

theorem int_bits_and_7ff (x : Int) : int_bits x &&& 0x07ff = (x % 2048).toNat := by
  have h := Nat.and_pow_two_sub_one_eq_mod (int_bits x) 11
  norm_num at h
  rw [h]; unfold int_bits; omega

theorem and_7f (x : Nat) : x &&& 0x7f = x % 128 := by
  have h := Nat.and_pow_two_sub_one_eq_mod x 7
  norm_num at h
  exact h

theorem and_0f (x : Nat) : x &&& 0x0f = x % 16 := by
  have h := Nat.and_pow_two_sub_one_eq_mod x 4
  norm_num at h
  exact h

theorem and_7ff (x : Nat) : x &&& 0x7ff = x % 2048 := by
  have h := Nat.and_pow_two_sub_one_eq_mod x 11
  norm_num at h
  exact h

/-- Reading back as a descriptor the two bytes a packer has written. -/
theorem read_packed_desc (buf : List Nat) (p D : Nat) (hbuf : p + 2 ≤ buf.length)
    (hD : D < 65536) :
    read_ie_desc ((buf.set p (D &&& 0xff)).set (p + 1) ((D >>> 8) &&& 0xff)) p = some D := by
  have r0 : rd ((buf.set p (D &&& 0xff)).set (p + 1) ((D >>> 8) &&& 0xff)) p
      = some (D % 256) := by
    unfold rd
    rw [List.getElem?_set, if_neg (by omega), List.getElem?_set, if_pos rfl, if_pos (by omega),
      low_byte]
    simp
  have r1 : rd ((buf.set p (D &&& 0xff)).set (p + 1) ((D >>> 8) &&& 0xff)) (p + 1)
      = some (D / 256) := by
    unfold rd
    rw [List.getElem?_set, if_pos rfl, if_pos (by rw [List.length_set]; omega), high_byte]
    simp
    omega
  unfold read_ie_desc
  rw [r0, r1]
  simp only []
  rw [to_u16_cast, Nat.shiftLeft_eq]
  congr 1
  omega

/-- The descriptor value computed by `create_header_ie_descriptor`. -/
theorem header_desc_value (element_id : Nat) (ie_len : Int) :
    to_u16 (((int_bits ie_len &&& 0x7f) + ((element_id &&& 0xff) <<< 7) : Nat) : Int)
      = (ie_len % 128).toNat + element_id % 256 * 128 := by
  rw [to_u16_cast, int_bits_and_7f, low_byte, Nat.shiftLeft_eq]
  omega

/-- The descriptor value computed by `create_payload_ie_descriptor` and by
`create_mlme_long_ie_descriptor`. -/
theorem long_desc_value (id : Nat) (ie_len : Int) :
    to_u16 (((int_bits ie_len &&& 0x07ff) + ((id &&& 0x0f) <<< 11) + (1 <<< 15) : Nat) : Int)
      = (ie_len % 2048).toNat + id % 16 * 2048 + 32768 := by
  rw [to_u16_cast, int_bits_and_7ff, and_0f, Nat.shiftLeft_eq, Nat.shiftLeft_eq]
  omega

/-- The descriptor value computed by `create_mlme_short_ie_descriptor`. -/
theorem short_desc_value (sub_id : Nat) (ie_len : Int) :
    to_u16 (((int_bits ie_len &&& 0xff) + ((sub_id &&& 0x7f) <<< 8) : Nat) : Int)
      = (ie_len % 256).toNat + sub_id % 128 * 256 := by
  rw [to_u16_cast, int_bits_and_ff, and_7f, Nat.shiftLeft_eq]
  omega

theorem and_bit15_eq_zero (d : Nat) (h : d < 32768) : d &&& 0x8000 = 0 := by
  by_contra hne
  have := (and_bit_ne_zero d 15).mp hne
  norm_num at this
  omega

theorem and_bit15_ne_zero (d : Nat) (h1 : 32768 ≤ d) (h2 : d < 65536) : d &&& 0x8000 ≠ 0 := by
  have := (and_bit_ne_zero d 15).mpr (by norm_num; omega)
  exact this

theorem and_7f80_shift (d : Nat) : (d &&& 0x7f80) >>> 7 = d / 128 % 256 := by
  have h : (d &&& 0x7f80) >>> 7 = d / 2 ^ 7 % 2 ^ 8 := and_mask_shift d 8 7
  rw [h]; norm_num

theorem and_7800_shift (d : Nat) : (d &&& 0x7800) >>> 11 = d / 2048 % 16 := by
  have h : (d &&& 0x7800) >>> 11 = d / 2 ^ 11 % 2 ^ 4 := and_mask_shift d 4 11
  rw [h]; norm_num

theorem and_7f00_shift (d : Nat) : (d &&& 0x7f00) >>> 8 = d / 256 % 128 := by
  have h : (d &&& 0x7f00) >>> 8 = d / 2 ^ 8 % 2 ^ 7 := and_mask_shift d 7 8
  rw [h]; norm_num

/-- C13: the two bytes written by each of the four descriptor packers, read
back as the little-endian 16-bit value `d` of the walker, have the type bit,
the length field and the id field of the layout table, for every 8-bit id and
every integer length. -/
theorem descriptor_packers_layout (buf : List Nat) (p id : Nat) (len : Int)
    (hbuf : p + 2 ≤ buf.length) (hid : id < 256) :
    (∃ d, read_ie_desc (create_header_ie_descriptor buf p id len) p = some d ∧
      d &&& 0x8000 = 0 ∧ d &&& 0x7f = (len % 128).toNat ∧ (d &&& 0x7f80) >>> 7 = id) ∧
    (∃ d, read_ie_desc (create_payload_ie_descriptor buf p id len) p = some d ∧
      d &&& 0x8000 ≠ 0 ∧ d &&& 0x7ff = (len % 2048).toNat ∧
      (d &&& 0x7800) >>> 11 = id % 16) ∧
    (∃ d, read_ie_desc (create_mlme_long_ie_descriptor buf p id len) p = some d ∧
      d &&& 0x8000 ≠ 0 ∧ d &&& 0x7ff = (len % 2048).toNat ∧
      (d &&& 0x7800) >>> 11 = id % 16) ∧
    (∃ d, read_ie_desc (create_mlme_short_ie_descriptor buf p id len) p = some d ∧
      d &&& 0x8000 = 0 ∧ d &&& 0xff = (len % 256).toNat ∧
      (d &&& 0x7f00) >>> 8 = id % 128) := by
  have hl1 : (len % 128).toNat < 128 := by omega
  have hl2 : (len % 2048).toNat < 2048 := by omega
  have hl3 : (len % 256).toNat < 256 := by omega
  refine ⟨⟨(len % 128).toNat + id % 256 * 128, ?_, ?_, ?_, ?_⟩,
    ⟨(len % 2048).toNat + id % 16 * 2048 + 32768, ?_, ?_, ?_, ?_⟩,
    ⟨(len % 2048).toNat + id % 16 * 2048 + 32768, ?_, ?_, ?_, ?_⟩,
    ⟨(len % 256).toNat + id % 128 * 256, ?_, ?_, ?_, ?_⟩⟩
  · unfold create_header_ie_descriptor
    simp only []
    rw [header_desc_value]
    exact read_packed_desc buf p _ hbuf (by omega)
  · exact and_bit15_eq_zero _ (by omega)
  · rw [and_7f]; omega
  · rw [and_7f80_shift]; omega
  · unfold create_payload_ie_descriptor
    simp only []
    rw [long_desc_value]
    exact read_packed_desc buf p _ hbuf (by omega)
  · exact and_bit15_ne_zero _ (by omega) (by omega)
  · rw [and_7ff]; omega
  · rw [and_7800_shift]; omega
  · unfold create_mlme_long_ie_descriptor
    simp only []
    rw [long_desc_value]
    exact read_packed_desc buf p _ hbuf (by omega)
  · exact and_bit15_ne_zero _ (by omega) (by omega)
  · rw [and_7ff]; omega
  · rw [and_7800_shift]; omega
  · unfold create_mlme_short_ie_descriptor
    simp only []
    rw [short_desc_value]
    exact read_packed_desc buf p _ hbuf (by omega)
  · exact and_bit15_eq_zero _ (by omega)
  · rw [low_byte]; omega
  · rw [and_7f00_shift]; omega

theorem descriptor_packers_layout_witness :
    ∃ d, read_ie_desc (create_header_ie_descriptor [0, 0] 0 0x1e (-126)) 0 = some d ∧
      d &&& 0x8000 = 0 ∧ d &&& 0x7f = ((-126 : Int) % 128).toNat ∧ (d &&& 0x7f80) >>> 7 = 0x1e :=
  (descriptor_packers_layout [0, 0] 0 0x1e (-126) (by decide) (by decide)).1

/-! ## Decoding of the time correction -/

/-- C14: with declared length 2 and a present record,
`frame802154e_parse_header_ie` with element id 0x1e sets `ie_is_nack` to bit
15 of `f = b0 + 256 * b1` and `ie_time_correction` to the two's complement
value of the low 12 bits of `f`, which lies in `[-2048, 2047]` and does not
depend on bits 12 to 14; the other fields are left as they were. -/
theorem time_correction_decoding (buf : List Nat) (p b0 b1 : Nat) (r : ieee802154_ies)
    (h0 : rd buf p = some b0) (h1 : rd buf (p + 1) = some b1) :
    frame802154e_parse_header_ie buf p 2 HEADER_IE_ACK_NACK_TIME_CORRECTION (some r)
      = some (2, some { r with
          ie_is_nack := (b0 + 256 * b1) / 32768 % 2,
          ie_time_correction :=
            if (b0 + 256 * b1) / 2048 % 2 = 0 then (((b0 + 256 * b1) % 4096 : Nat) : Int)
            else (((b0 + 256 * b1) % 4096 : Nat) : Int) - 4096 }) ∧
    -2048 ≤ (if (b0 + 256 * b1) / 2048 % 2 = 0 then (((b0 + 256 * b1) % 4096 : Nat) : Int)
            else (((b0 + 256 * b1) % 4096 : Nat) : Int) - 4096) ∧
    (if (b0 + 256 * b1) / 2048 % 2 = 0 then (((b0 + 256 * b1) % 4096 : Nat) : Int)
            else (((b0 + 256 * b1) % 4096 : Nat) : Int) - 4096) ≤ 2047 := by
  have hb0 := rd_lt h0
  have hb1 := rd_lt h1
  have hf : b0 + b1 * 256 = b0 + 256 * b1 := by omega
  refine ⟨?_, ?_, ?_⟩
  · rw [parse_header_ie_time_correction r h0 h1, hf]
    have e1 : (b0 + 256 * b1) / 32768 = (b0 + 256 * b1) / 32768 % 2 := by omega
    have e2 : sext12 (b0 + 256 * b1) =
        if (b0 + 256 * b1) / 2048 % 2 = 0 then (((b0 + 256 * b1) % 4096 : Nat) : Int)
        else (((b0 + 256 * b1) % 4096 : Nat) : Int) - 4096 := by
      unfold sext12
      split <;> split <;> omega
    rw [← e1, e2]
  · split <;> omega
  · split <;> omega

theorem time_correction_decoding_witness :
    frame802154e_parse_header_ie [0xfb, 0xff] 0 2 HEADER_IE_ACK_NACK_TIME_CORRECTION
        (some ⟨0, 0, 0, ⟨0, 0⟩, 0, 0, 0⟩)
      = some (2, some ⟨-5, 1, 0, ⟨0, 0⟩, 0, 0, 0⟩) :=
  (time_correction_decoding [0xfb, 0xff] 0 0xfb 0xff ⟨0, 0, 0, ⟨0, 0⟩, 0, 0, 0⟩
    (by decide) (by decide)).1.trans (by decide)

/-! ## Drift outside the 12-bit range -/

/-- C17: for every drift `d` (the signed 16-bit ones among them) and every
NACK flag, decoding with `frame802154e_parse_header_ie` the two payload bytes
that `frame80215e_create_ie_ack_nack_time_correction` has written gives the
only `d'` in `[-2048, 2047]` congruent to `d` modulo 4096, and `ie_is_nack = 1`
exactly when the flag given to the encoder is not 0; bits 12 to 14 of the
encoded field are clear. -/
theorem drift_is_reduced_modulo_4096 (buf : List Nat) (r r0 : ieee802154_ies)
    (hbuf : buf.length = 4) :
    frame802154e_parse_header_ie
        (frame80215e_create_ie_ack_nack_time_correction buf 0 4 (some r)).2 2 2
        HEADER_IE_ACK_NACK_TIME_CORRECTION (some r0)
      = some (2, some { r0 with
          ie_is_nack := if r.ie_is_nack ≠ 0 then 1 else 0,
          ie_time_correction := (r.ie_time_correction + 2048) % 4096 - 2048 }) ∧
    -2048 ≤ (r.ie_time_correction + 2048) % 4096 - 2048 ∧
    (r.ie_time_correction + 2048) % 4096 - 2048 ≤ 2047 ∧
    ((r.ie_time_correction + 2048) % 4096 - 2048 - r.ie_time_correction) % 4096 = 0 ∧
    (∀ x : Int, -2048 ≤ x → x ≤ 2047 → (x - r.ie_time_correction) % 4096 = 0 →
      x = (r.ie_time_correction + 2048) % 4096 - 2048) ∧
    (∃ b0 b1,
      rd (frame80215e_create_ie_ack_nack_time_correction buf 0 4 (some r)).2 2 = some b0 ∧
      rd (frame80215e_create_ie_ack_nack_time_correction buf 0 4 (some r)).2 3 = some b1 ∧
      (b0 + 256 * b1) / 4096 % 8 = 0) := by
  obtain ⟨a, b, c, e, rfl⟩ := length_eq_four hbuf
  rw [ack_encode a b c e 4 (le_refl _) r]
  have hF : ack_field r < 65536 := by unfold ack_field; split <;> omega
  have hx : rd [2, 15, ack_field r % 256, ack_field r / 256] 2
      = some (ack_field r % 256) := by simp [rd]
  have hy : rd [2, 15, ack_field r % 256, ack_field r / 256] (2 + 1)
      = some (ack_field r / 256) := by
    simp [rd]; omega
  have hsum : ack_field r % 256 + ack_field r / 256 * 256 = ack_field r := by omega
  refine ⟨?_, by omega, by omega, by omega, fun x h1 h2 h3 => by omega, ?_⟩
  · rw [parse_header_ie_time_correction r0 hx hy, hsum]
    have hnack : ack_field r / 32768 = if r.ie_is_nack ≠ 0 then 1 else 0 := by
      unfold ack_field
      by_cases h : r.ie_is_nack = 0 <;> simp [h] <;> omega
    have htc : sext12 (ack_field r) = (r.ie_time_correction + 2048) % 4096 - 2048 := by
      unfold sext12 ack_field
      by_cases h : r.ie_is_nack = 0 <;> simp [h] <;> split <;> omega
    rw [hnack, htc]
  · refine ⟨_, _, hx, hy, ?_⟩
    unfold ack_field
    split <;> omega

theorem drift_is_reduced_modulo_4096_witness :
    frame802154e_parse_header_ie
        (frame80215e_create_ie_ack_nack_time_correction [0, 0, 0, 0] 0 4
          (some ⟨3000, 7, 0, ⟨0, 0⟩, 0, 0, 0⟩)).2 2 2
        HEADER_IE_ACK_NACK_TIME_CORRECTION (some ⟨0, 0, 0, ⟨0, 0⟩, 0, 0, 0⟩)
      = some (2, some ⟨-1096, 1, 0, ⟨0, 0⟩, 0, 0, 0⟩) :=
  (drift_is_reduced_modulo_4096 [0, 0, 0, 0] ⟨3000, 7, 0, ⟨0, 0⟩, 0, 0, 0⟩
    ⟨0, 0, 0, ⟨0, 0⟩, 0, 0, 0⟩ rfl).1.trans (by decide)

/-! ## Round trip of the timeslot and channel hopping sequence sub-IEs -/

theorem parse_mlme_short_ie_timeslot {buf : List Nat} {p b0 : Nat} (r : ieee802154_ies)
    (h0 : rd buf p = some b0) :
    frame802154e_parse_mlme_short_ie buf p 1 PAYLOAD_IE_TSCH_TIMESLOT (some r)
      = some (1, some { r with ie_tsch_timeslot_id := b0 }) := by
  unfold frame802154e_parse_mlme_short_ie
  rw [if_neg (by decide), if_pos rfl, if_pos rfl]
  simp only [h0]

theorem parse_mlme_long_ie_hopping {buf : List Nat} {p b0 : Nat} (r : ieee802154_ies)
    (h0 : rd buf p = some b0) :
    frame802154e_parse_mlme_long_ie buf p 1 PAYLOAD_IE_TSCH_CHANNEL_HOPPING_SEQUENCE (some r)
      = some (1, some { r with ie_channel_hopping_sequence_id := b0 }) := by
  unfold frame802154e_parse_mlme_long_ie
  rw [if_pos rfl, if_pos rfl]
  simp only [h0]

theorem length_eq_eight {l : List Nat} (h : l.length = 8) :
    ∃ c0 c1 c2 c3 c4 c5 c6 c7, [c0, c1, c2, c3, c4, c5, c6, c7] = l := by
  match l, h with
  | [c0, c1, c2, c3, c4, c5, c6, c7], _ => exact ⟨c0, c1, c2, c3, c4, c5, c6, c7, rfl⟩

theorem timeslot_hopping_buffer_eq (a0 a1 a2 a3 a4 a5 a6 a7 : Nat) (r : ieee802154_ies)
    (hm : r.ie_mlme_len = 6) :
    timeslot_hopping_buffer [a0, a1, a2, a3, a4, a5, a6, a7] r
      = [6, 136, 1, 28, r.ie_tsch_timeslot_id % 256, 1, 200,
          r.ie_channel_hopping_sequence_id % 256] := by
  have hd1 : to_u16 (((int_bits ((6 : Nat) : Int) &&& 0x07ff) + ((1 &&& 0x0f) <<< 11)
      + (1 <<< 15) : Nat) : Int) = 34822 := by decide
  have hd2 : to_u16 (((int_bits 1 &&& 0xff) + ((0x1c &&& 0x7f) <<< 8) : Nat) : Int) = 7169 := by
    decide
  have hd3 : to_u16 (((int_bits 1 &&& 0x07ff) + ((0x9 &&& 0x0f) <<< 11)
      + (1 <<< 15) : Nat) : Int) = 51201 := by decide
  unfold timeslot_hopping_buffer frame80215e_create_ie_tsch_channel_hopping_sequence
    frame80215e_create_ie_tsch_timeslot frame80215e_create_ie_mlme
    create_payload_ie_descriptor create_mlme_short_ie_descriptor create_mlme_long_ie_descriptor
    PAYLOAD_IE_MLME PAYLOAD_IE_TSCH_TIMESLOT PAYLOAD_IE_TSCH_CHANNEL_HOPPING_SEQUENCE
  simp only []
  rw [hm, hd1, hd2, hd3, if_pos (by decide), if_pos (by decide), if_pos (by decide)]
  simp only [to_u8_cast]
  simp [List.set]
  decide

/-- An iteration inside an MLME group over a timeslot sub-IE of declared
length 1 that does not end the group. -/
theorem loop_body_timeslot {buf : List Nat} {s : walk_state} {t : Nat} {r : ieee802154_ies}
    (h0 : rd buf s.pos = some 1) (h1 : rd buf (s.pos + 1) = some 28)
    (p0 : rd buf (s.pos + 2) = some t)
    (hbs : 3 ≤ s.buf_size) (hbs2 : s.buf_size < 256)
    (hn : 3 < s.in_nested_mlme) (hies : s.ies = some r) :
    loop_body buf s = .next ⟨s.pos + 3, s.buf_size - 3, s.in_nested_mlme - 3,
      some { r with ie_tsch_timeslot_id := t }⟩ := by
  have e1 : (((1 : Nat) : Nat) : Int) = 1 := rfl
  have pt := parse_mlme_short_ie_timeslot r p0
  unfold PAYLOAD_IE_TSCH_TIMESLOT at pt
  have hb := loop_body_short h0 h1 (by omega) hbs2 (by omega) (by norm_num)
  rw [e1, hies, pt] at hb
  simp only [] at hb
  rw [if_neg (by omega), if_neg (by decide), if_neg (by omega), if_neg (by omega),
    advance_eq _ _ (by omega) (by omega)] at hb
  rw [hb]
  congr 2

/-- An iteration inside an MLME group over a channel hopping sequence
sub-IE (long form) of declared length 1 that fills the group exactly. -/
theorem loop_body_hopping_last {buf : List Nat} {s : walk_state} {h : Nat}
    {r : ieee802154_ies}
    (h0 : rd buf s.pos = some 1) (h1 : rd buf (s.pos + 1) = some 200)
    (p0 : rd buf (s.pos + 2) = some h)
    (hbs : 3 ≤ s.buf_size) (hbs2 : s.buf_size < 256)
    (hn : s.in_nested_mlme = 3) (hies : s.ies = some r) :
    loop_body buf s = .done (.ret ((s.pos : Int) + 3)
      (some { r with ie_channel_hopping_sequence_id := h })) := by
  have e0 : (1 + 256 * 200) % 2048 = 1 := rfl
  have e1 : (((1 : Nat) : Nat) : Int) = 1 := rfl
  have e2 : (1 + 256 * 200) / 2048 % 16 = PAYLOAD_IE_TSCH_CHANNEL_HOPPING_SEQUENCE := rfl
  have hb := loop_body_long h0 h1 (by omega) hbs2 (by omega) (by norm_num)
  rw [e0, e1, e2, hies, parse_mlme_long_ie_hopping r p0] at hb
  simp only [] at hb
  rw [if_neg (by omega), if_neg (by decide), hn, if_neg (by decide), if_pos (by decide)] at hb
  rw [hb]
  congr 2

/-- C15: the 8-byte buffer written by `frame80215e_create_ie_mlme` (with
`ie_mlme_len = 6`), `frame80215e_create_ie_tsch_timeslot` and
`frame80215e_create_ie_tsch_channel_hopping_sequence` is parsed by the walker
with return value 8, and the record then holds the timeslot template id and
the hopping sequence id given to the encoders, for all 8-bit ids. -/
theorem timeslot_and_hopping_round_trip (buf : List Nat) (r r0 : ieee802154_ies)
    (hbuf : buf.length = 8) (hmlme : r.ie_mlme_len = 6)
    (ht : r.ie_tsch_timeslot_id < 256) (hh : r.ie_channel_hopping_sequence_id < 256) :
    (frame80215e_create_ie_mlme buf 0 8 (some r)).1 = 2 ∧
    (frame80215e_create_ie_tsch_timeslot
      (frame80215e_create_ie_mlme buf 0 8 (some r)).2 2 6 (some r)).1 = 3 ∧
    (frame80215e_create_ie_tsch_channel_hopping_sequence
      (frame80215e_create_ie_tsch_timeslot
        (frame80215e_create_ie_mlme buf 0 8 (some r)).2 2 6 (some r)).2 5 3 (some r)).1 = 3 ∧
    frame802154e_parse_information_elements (timeslot_hopping_buffer buf r) 8 (some r0)
      = .ret 8 (some { r0 with
          ie_tsch_timeslot_id := r.ie_tsch_timeslot_id,
          ie_channel_hopping_sequence_id := r.ie_channel_hopping_sequence_id }) := by
  obtain ⟨a0, a1, a2, a3, a4, a5, a6, a7, rfl⟩ := length_eq_eight hbuf
  refine ⟨rfl, rfl, rfl, ?_⟩
  rw [timeslot_hopping_buffer_eq a0 a1 a2 a3 a4 a5 a6 a7 r hmlme, Nat.mod_eq_of_lt ht,
    Nat.mod_eq_of_lt hh]
  generalize r.ie_tsch_timeslot_id = t at ht
  generalize r.ie_channel_hopping_sequence_id = h at hh
  have hstep1 : loop_body [6, 136, 1, 28, t, 1, 200, h] ⟨0, 8, 0, some r0⟩
      = .next ⟨2, 6, 6, some r0⟩ :=
    @loop_body_mlme [6, 136, 1, 28, t, 1, 200, h] ⟨0, 8, 0, some r0⟩ 6 136
      (by simp [rd]) (by simp [rd]) (by simp) (by simp) rfl (by decide) (by decide)
  have hstep2 : loop_body [6, 136, 1, 28, t, 1, 200, h] ⟨2, 6, 6, some r0⟩
      = .next ⟨5, 3, 3, some { r0 with ie_tsch_timeslot_id := t }⟩ :=
    @loop_body_timeslot [6, 136, 1, 28, t, 1, 200, h] ⟨2, 6, 6, some r0⟩ t r0
      (by simp [rd]) (by simp [rd]) (by simp [rd]; omega) (by simp) (by simp) (by simp) rfl
  have hstep3 : loop_body [6, 136, 1, 28, t, 1, 200, h]
        ⟨5, 3, 3, some { r0 with ie_tsch_timeslot_id := t }⟩
      = .done (.ret 8 (some { r0 with ie_tsch_timeslot_id := t,
                                      ie_channel_hopping_sequence_id := h })) :=
    @loop_body_hopping_last [6, 136, 1, 28, t, 1, 200, h]
      ⟨5, 3, 3, some { r0 with ie_tsch_timeslot_id := t }⟩ h
      { r0 with ie_tsch_timeslot_id := t }
      (by simp [rd]) (by simp [rd]) (by simp [rd]; omega) (by simp) (by simp) rfl rfl
  unfold frame802154e_parse_information_elements
  rw [show (8 : Nat) % 256 = 8 from rfl, parse_loop_next _ (by simp) hstep1]
  rw [show [6, 136, 1, 28, t, 1, 200, h].length = 7 + 1 from rfl,
    parse_loop_next _ (by simp) hstep2]
  exact parse_loop_done (by decide) (by simp) hstep3

theorem timeslot_and_hopping_round_trip_witness :
    frame802154e_parse_information_elements
        (timeslot_hopping_buffer [0, 0, 0, 0, 0, 0, 0, 0] ⟨0, 0, 6, ⟨0, 0⟩, 0, 5, 200⟩) 8
        (some ⟨0, 0, 0, ⟨0, 0⟩, 0, 0, 0⟩)
      = .ret 8 (some ⟨0, 0, 0, ⟨0, 0⟩, 0, 5, 200⟩) :=
  (timeslot_and_hopping_round_trip [0, 0, 0, 0, 0, 0, 0, 0] ⟨0, 0, 6, ⟨0, 0⟩, 0, 5, 200⟩
    ⟨0, 0, 0, ⟨0, 0⟩, 0, 0, 0⟩ rfl rfl (by decide) (by decide)).2.2.2

/-! ## Unchecked length of a payload IE -/

/-- An iteration at the top level over a payload IE whose group id is not 1:
the declared length is skipped without any comparison with `buf_size`, which
is reduced modulo 256. -/
theorem loop_body_payload_other {buf : List Nat} {s : walk_state} {b0 b1 : Nat}
    (h0 : rd buf s.pos = some b0) (h1 : rd buf (s.pos + 1) = some b1)
    (hbs : 2 ≤ s.buf_size) (hbs2 : s.buf_size < 256)
    (hn : s.in_nested_mlme = 0) (ht : 128 ≤ b1) (hid : (b0 + 256 * b1) / 2048 % 16 ≠ 1) :
    loop_body buf s = .next ⟨s.pos + 2 + (b0 + 256 * b1) % 2048,
      to_u8 (((s.buf_size - 2 : Nat) : Int) - (((b0 + 256 * b1) % 2048 : Nat) : Int)), 0,
      s.ies⟩ := by
  rw [loop_body_payload h0 h1 hbs hbs2 hn ht, if_neg hid, hn]
  rfl

/-- C16 (as the code behaves): on the 2-byte buffer `0x00 0x81`, a payload IE
with group id 0 and declared length 256, the walker returns 258, a value that
is not -1 and exceeds `buf_size = 2`. -/
theorem returned_size_exceeds_buf_size (ies : Option ieee802154_ies) :
    ∃ r ies1, frame802154e_parse_information_elements [0x00, 0x81] 2 ies = .ret r ies1 ∧
      r ≠ -1 ∧ ¬ (0 ≤ r ∧ r ≤ 2) := by
  have hstep : loop_body [0x00, 0x81] ⟨0, 2, 0, ies⟩ = .next ⟨258, 0, 0, ies⟩ :=
    @loop_body_payload_other [0x00, 0x81] ⟨0, 2, 0, ies⟩ 0x00 0x81
      (by simp [rd]) (by simp [rd]) (by simp) (by simp) rfl (by decide) (by decide)
  refine ⟨258, ies, ?_, by decide, by decide⟩
  unfold frame802154e_parse_information_elements
  rw [show (2 : Nat) % 256 = 2 from rfl, parse_loop_next _ (by simp) hstep,
    parse_loop_exit _ (by simp) rfl]
  rfl

/-- C20 (as the code behaves): with `buf_size = 2` on a buffer object that
starts with `0x02 0x80`, a payload IE with group id 0 and declared length 2,
the first iteration does not return and raises `buf_size` from 2 to 254; one
iteration does not end the walk, which returns -1 in the second one. -/
theorem buf_size_rises_in_an_iteration (ies : Option ieee802154_ies) :
    loop_body [0x02, 0x80, 0x00, 0x00, 0x00, 0x00] ⟨0, 2, 0, ies⟩ = .next ⟨4, 254, 0, ies⟩ ∧
    parse_loop 1 [0x02, 0x80, 0x00, 0x00, 0x00, 0x00] ⟨0, 2, 0, ies⟩ = .nofuel ∧
    frame802154e_parse_information_elements [0x02, 0x80, 0x00, 0x00, 0x00, 0x00] 2 ies
      = .ret (-1) ies := by
  have hstep : loop_body [0x02, 0x80, 0x00, 0x00, 0x00, 0x00] ⟨0, 2, 0, ies⟩
      = .next ⟨4, 254, 0, ies⟩ :=
    @loop_body_payload_other [0x02, 0x80, 0x00, 0x00, 0x00, 0x00] ⟨0, 2, 0, ies⟩ 0x02 0x80
      (by simp [rd]) (by simp [rd]) (by simp) (by simp) rfl (by decide) (by decide)
  have hstep2 : loop_body [0x02, 0x80, 0x00, 0x00, 0x00, 0x00] ⟨4, 254, 0, ies⟩
      = .done (.ret (-1) ies) :=
    @loop_body_header_zero [0x02, 0x80, 0x00, 0x00, 0x00, 0x00] ⟨4, 254, 0, ies⟩ 0x00 0x00
      (by simp [rd]) (by simp [rd]) (by simp) (by simp) rfl (by decide) (by decide)
  refine ⟨hstep, ?_, ?_⟩
  · rw [parse_loop_next _ (by simp) hstep]
    rfl
  · unfold frame802154e_parse_information_elements
    rw [show (2 : Nat) % 256 = 2 from rfl, parse_loop_next _ (by simp) hstep]
    exact parse_loop_done (by decide) (by simp) hstep2

/-! ## Open-ended parse -/

theorem parse_header_ie_total (buf : List Nat) (p len element_id : Nat)
    (ies : Option ieee802154_ies) (h : p + len ≤ buf.length) :
    ∃ ies1, frame802154e_parse_header_ie buf p (len : Int) element_id ies
      = some ((len : Int), ies1) := by
  unfold frame802154e_parse_header_ie
  by_cases h1 : element_id = HEADER_IE_ACK_NACK_TIME_CORRECTION
  · rw [if_pos h1]
    by_cases h2 : (len : Int) = 2
    · rw [if_pos h2]
      cases ies with
      | none => exact ⟨_, rfl⟩
      | some r =>
        obtain ⟨b0, e0⟩ := @rd_some buf p (by omega)
        obtain ⟨b1, e1⟩ := @rd_some buf (p + 1) (by omega)
        simp only [e0, e1]
        exact ⟨_, rfl⟩
    · rw [if_neg h2]; exact ⟨_, rfl⟩
  · rw [if_neg h1]; exact ⟨_, rfl⟩

theorem top_ies_bytes_length (l : List top_ie) (hc : ∀ e ∈ l, e.plain) :
    (top_ies_bytes l).length = top_ies_size l := by
  induction l with
  | nil => rfl
  | cons e es ih =>
    have he := hc e (List.mem_cons_self _ _)
    have := ih (fun x hx => hc x (List.mem_cons_of_mem _ hx))
    simp only [top_ies_bytes, top_ies_size, top_ie.bytes, top_ie.size, List.length_append,
      List.length_cons, this, he.2.2.1]
    omega

theorem top_ies_length_le_size (l : List top_ie) : l.length ≤ top_ies_size l := by
  induction l with
  | nil => exact Nat.le_refl _
  | cons e es ih =>
    simp only [List.length_cons, top_ies_size, top_ie.size]
    omega

/-- An iteration at the top level over a plain IE whose payload lies inside
the buffer: the IE is skipped. -/
theorem loop_body_plain_ie {buf : List Nat} {s : walk_state} (e : top_ie)
    (h0 : rd buf s.pos = some e.d0) (h1 : rd buf (s.pos + 1) = some e.d1)
    (hp : e.plain)
    (hbs : 2 + e.declared_len ≤ s.buf_size) (hbs2 : s.buf_size < 256)
    (hn : s.in_nested_mlme = 0) (hlen : s.pos + 2 + e.declared_len ≤ buf.length) :
    ∃ ies1, loop_body buf s
      = .next ⟨s.pos + 2 + e.declared_len, s.buf_size - 2 - e.declared_len, 0, ies1⟩ := by
  obtain ⟨hd0, hd1, hpl, hhdr, hpay⟩ := hp
  by_cases ht : e.d1 < 128
  · have hl : e.declared_len = e.d0 % 128 := by unfold top_ie.declared_len; rw [if_pos ht]
    have hi : e.id = (e.d0 + 256 * e.d1) / 128 % 256 := by unfold top_ie.id; rw [if_pos ht]
    obtain ⟨hid, hpos⟩ := hhdr ht
    rw [hi] at hid
    rw [hl] at hbs hlen hpos ⊢
    obtain ⟨ies1, hpr⟩ := parse_header_ie_total buf (s.pos + 2) (e.d0 % 128)
      ((e.d0 + 256 * e.d1) / 128 % 256) s.ies hlen
    refine ⟨ies1, ?_⟩
    rw [loop_body_header h0 h1 (by omega) hbs2 hn ht,
      if_neg (show ¬ (e.d0 % 128 > s.buf_size - 2) by omega), hpr]
    simp only []
    rw [if_neg (show ¬ (((e.d0 % 128 : Nat) : Int) = 0) by omega), if_neg hid,
      advance_eq _ _ (by omega) (by omega), hn]
  · have hl : e.declared_len = (e.d0 + 256 * e.d1) % 2048 := by
      unfold top_ie.declared_len; rw [if_neg ht]
    have hi : e.id = (e.d0 + 256 * e.d1) / 2048 % 16 := by unfold top_ie.id; rw [if_neg ht]
    have hid := hpay (by omega)
    rw [hi] at hid
    rw [hl] at hbs hlen ⊢
    refine ⟨s.ies, ?_⟩
    rw [loop_body_payload h0 h1 (by omega) hbs2 hn (by omega), if_neg hid,
      advance_eq _ _ (by omega) (by omega), hn]

/-- The walker at the top level on a sequence of plain IEs consumes all of
them and returns at the end of the buffer. -/
theorem parse_loop_plain_ies (l : List top_ie) :
    ∀ (pre : List Nat) (fuel : Nat) (ies : Option ieee802154_ies),
      (∀ e ∈ l, e.plain) → top_ies_size l < 256 → l.length < fuel →
      ∃ ies1, parse_loop fuel (pre ++ top_ies_bytes l) ⟨pre.length, top_ies_size l, 0, ies⟩
        = .ret ((pre.length + top_ies_size l : Nat) : Int) ies1 := by
  induction l with
  | nil =>
    intro pre fuel ies _ _ hfuel
    exact ⟨ies, parse_loop_exit _ (by omega) rfl⟩
  | cons e es ih =>
    intro pre fuel ies hc hsz hfuel
    obtain ⟨k, rfl⟩ := Nat.exists_eq_succ_of_ne_zero (Nat.pos_iff_ne_zero.mp (by omega : 0 < fuel))
    have he := hc e (List.mem_cons_self _ _)
    have hces : ∀ x ∈ es, x.plain := fun x hx => hc x (List.mem_cons_of_mem _ hx)
    have hlen_es := top_ies_bytes_length es hces
    simp only [top_ies_size, top_ie.size] at hsz
    have hd0 : rd (pre ++ top_ies_bytes (e :: es)) pre.length = some e.d0 := by
      have := rd_append_right pre (top_ies_bytes (e :: es)) 0
      rw [Nat.add_zero] at this
      rw [this]
      simp [top_ies_bytes, top_ie.bytes, rd, Nat.mod_eq_of_lt he.1]
    have hd1 : rd (pre ++ top_ies_bytes (e :: es)) (pre.length + 1) = some e.d1 := by
      rw [rd_append_right]
      simp [top_ies_bytes, top_ie.bytes, rd, Nat.mod_eq_of_lt he.2.1]
    have hbuflen : (pre ++ top_ies_bytes (e :: es)).length
        = pre.length + 2 + e.declared_len + top_ies_size es := by
      simp only [top_ies_bytes, top_ie.bytes, List.length_append, List.length_cons, hlen_es,
        he.2.2.1]
      omega
    obtain ⟨ies1, hbody⟩ := @loop_body_plain_ie (pre ++ top_ies_bytes (e :: es))
      ⟨pre.length, top_ies_size (e :: es), 0, ies⟩ e hd0 hd1 he
      (by simp only [top_ies_size, top_ie.size]; omega)
      (by simp only [top_ies_size, top_ie.size]; omega)
      rfl (by rw [hbuflen]; simp only []; omega)
    have hbs : 0 < (walk_state.mk pre.length (top_ies_size (e :: es)) 0 ies).buf_size := by
      simp only [top_ies_size, top_ie.size]; omega
    simp only [] at hbody
    rw [parse_loop_next _ hbs hbody]
    obtain ⟨ies2, hih⟩ := ih (pre ++ e.bytes) k ies1 hces (by omega)
      (by simp only [List.length_cons] at hfuel; omega)
    have e1 : (pre ++ e.bytes).length = pre.length + 2 + e.declared_len := by
      simp only [top_ie.bytes, List.length_append, List.length_cons, he.2.2.1]
      omega
    have e2 : pre ++ top_ies_bytes (e :: es) = (pre ++ e.bytes) ++ top_ies_bytes es := by
      simp only [top_ies_bytes, List.append_assoc]
    have e3 : top_ies_size (e :: es) - 2 - e.declared_len = top_ies_size es := by
      simp only [top_ies_size, top_ie.size]; omega
    have e4 : pre.length + top_ies_size (e :: es) = (pre ++ e.bytes).length + top_ies_size es := by
      rw [e1]; simp only [top_ies_size, top_ie.size]; omega
    refine ⟨ies2, ?_⟩
    rw [e2, e3, ← e1, e4]
    exact hih

/-- C18: a buffer of total size `n <= 255` that is a concatenation of complete
IEs, each a header IE with an element id other than 0x7f and a declared
length from 1 to 127 or a payload IE with a group id other than 1, is parsed
by the walker with return value `n`; on the empty buffer the walker returns 0
and leaves the record as it was. -/
theorem open_ended_parse_succeeds (l : List top_ie) (ies : Option ieee802154_ies)
    (hp : ∀ e ∈ l, e.plain) (hn : top_ies_size l ≤ 255) :
    (∃ ies1, frame802154e_parse_information_elements (top_ies_bytes l) (top_ies_size l) ies
      = .ret (top_ies_size l : Int) ies1) ∧
    frame802154e_parse_information_elements [] 0 ies = .ret 0 ies := by
  refine ⟨?_, rfl⟩
  obtain ⟨ies1, h⟩ := parse_loop_plain_ies l [] ((top_ies_bytes l).length + 1) ies hp
    (by omega) (by rw [top_ies_bytes_length l hp]; have := top_ies_length_le_size l; omega)
  refine ⟨ies1, ?_⟩
  unfold frame802154e_parse_information_elements
  rw [Nat.mod_eq_of_lt (by omega)]
  simpa using h

theorem open_ended_parse_succeeds_witness :
    (∃ ies1, frame802154e_parse_information_elements
        (top_ies_bytes [⟨0x01, 0x00, [0xaa]⟩, ⟨0x02, 0x80, [1, 2]⟩])
        (top_ies_size [⟨0x01, 0x00, [0xaa]⟩, ⟨0x02, 0x80, [1, 2]⟩]) none
      = .ret (top_ies_size [⟨0x01, 0x00, [0xaa]⟩, ⟨0x02, 0x80, [1, 2]⟩] : Int) ies1) ∧
    frame802154e_parse_information_elements [] 0 none = .ret 0 none :=
  open_ended_parse_succeeds [⟨0x01, 0x00, [0xaa]⟩, ⟨0x02, 0x80, [1, 2]⟩] none
    (by
      intro e he
      simp only [List.mem_cons, List.mem_singleton, List.not_mem_nil, or_false] at he
      rcases he with rfl | rfl
      · exact ⟨by decide, by decide, rfl, fun _ => ⟨by decide, by decide⟩,
          fun h => absurd h (by decide)⟩
      · exact ⟨by decide, by decide, rfl, fun h => absurd h (by decide), fun _ => by decide⟩)
    (by decide)

/-! ## Validate-only mode -/

theorem parse_header_ie_some_or_oob (buf : List Nat) (p : Nat) (len : Int) (element_id : Nat)
    (ies : Option ieee802154_ies) :
    frame802154e_parse_header_ie buf p len element_id ies = none ∨
    ∃ ies1, frame802154e_parse_header_ie buf p len element_id ies = some (len, ies1) := by
  unfold frame802154e_parse_header_ie
  split
  · split
    · split
      · split
        · exact Or.inr ⟨_, rfl⟩
        · exact Or.inl rfl
      · exact Or.inr ⟨_, rfl⟩
    · exact Or.inr ⟨_, rfl⟩
  · exact Or.inr ⟨_, rfl⟩

theorem parse_header_ie_null (buf : List Nat) (p : Nat) (len : Int) (element_id : Nat) :
    frame802154e_parse_header_ie buf p len element_id none = some (len, none) := by
  unfold frame802154e_parse_header_ie
  split
  · split <;> rfl
  · rfl

theorem parse_mlme_short_ie_some_or_oob (buf : List Nat) (p : Nat) (len : Int) (sub_id : Nat)
    (ies : Option ieee802154_ies) :
    frame802154e_parse_mlme_short_ie buf p len sub_id ies = none ∨
    ∃ ies1, frame802154e_parse_mlme_short_ie buf p len sub_id ies = some (len, ies1) := by
  unfold frame802154e_parse_mlme_short_ie
  split
  · split
    · split
      · split
        · exact Or.inr ⟨_, rfl⟩
        · exact Or.inl rfl
      · exact Or.inr ⟨_, rfl⟩
    · exact Or.inr ⟨_, rfl⟩
  · split
    · split
      · split
        · split
          · exact Or.inr ⟨_, rfl⟩
          · exact Or.inl rfl
        · exact Or.inr ⟨_, rfl⟩
      · exact Or.inr ⟨_, rfl⟩
    · exact Or.inr ⟨_, rfl⟩

theorem parse_mlme_short_ie_null (buf : List Nat) (p : Nat) (len : Int) (sub_id : Nat) :
    frame802154e_parse_mlme_short_ie buf p len sub_id none = some (len, none) := by
  unfold frame802154e_parse_mlme_short_ie
  split
  · split <;> rfl
  · split
    · split <;> rfl
    · rfl

theorem parse_mlme_long_ie_some_or_oob (buf : List Nat) (p : Nat) (len : Int) (sub_id : Nat)
    (ies : Option ieee802154_ies) :
    frame802154e_parse_mlme_long_ie buf p len sub_id ies = none ∨
    ∃ ies1, frame802154e_parse_mlme_long_ie buf p len sub_id ies = some (len, ies1) := by
  unfold frame802154e_parse_mlme_long_ie
  split
  · split
    · split
      · split
        · exact Or.inr ⟨_, rfl⟩
        · exact Or.inl rfl
      · exact Or.inr ⟨_, rfl⟩
    · exact Or.inr ⟨_, rfl⟩
  · exact Or.inr ⟨_, rfl⟩

theorem parse_mlme_long_ie_null (buf : List Nat) (p : Nat) (len : Int) (sub_id : Nat) :
    frame802154e_parse_mlme_long_ie buf p len sub_id none = some (len, none) := by
  unfold frame802154e_parse_mlme_long_ie
  split
  · split <;> rfl
  · rfl

/-- An iteration with a record either reads outside the buffer object or
does, the record apart, what the iteration with NULL does. -/
theorem loop_body_forget (buf : List Nat) (s : walk_state) (hbs2 : s.buf_size < 256) :
    loop_body buf s = .done .oob ∨
    forget_record_step (loop_body buf s)
      = loop_body buf ⟨s.pos, s.buf_size, s.in_nested_mlme, none⟩ := by
  by_cases hbs : s.buf_size < 2
  · right
    rw [loop_body_one_byte buf hbs,
      @loop_body_one_byte buf ⟨s.pos, s.buf_size, s.in_nested_mlme, none⟩ hbs]
    rfl
  · have hbs' : 2 ≤ s.buf_size := by omega
    cases h1 : rd buf (s.pos + 1) with
    | none => exact Or.inl (loop_body_oob_left hbs' h1)
    | some b1 =>
      cases h0 : rd buf s.pos with
      | none => exact Or.inl (loop_body_oob_right hbs' h0)
      | some b0 =>
        by_cases hn : s.in_nested_mlme = 0
        · by_cases ht : b1 < 128
          · rw [loop_body_header h0 h1 hbs' hbs2 hn ht,
              @loop_body_header buf ⟨s.pos, s.buf_size, s.in_nested_mlme, none⟩ b0 b1 h0 h1
                hbs' hbs2 hn ht]
            simp only []
            by_cases c1 : b0 % 128 > s.buf_size - 2
            · rw [if_pos c1, if_pos c1]; exact Or.inr rfl
            · rw [if_neg c1, if_neg c1, parse_header_ie_null]
              rcases parse_header_ie_some_or_oob buf (s.pos + 2) ((b0 % 128 : Nat) : Int)
                ((b0 + 256 * b1) / 128 % 256) s.ies with hp | ⟨ies1, hp⟩
              · rw [hp]; exact Or.inl rfl
              · rw [hp]
                right
                simp only []
                split_ifs <;> rfl
          · rw [loop_body_payload h0 h1 hbs' hbs2 hn (by omega),
              @loop_body_payload buf ⟨s.pos, s.buf_size, s.in_nested_mlme, none⟩ b0 b1 h0 h1
                hbs' hbs2 hn (by omega)]
            right
            simp only []
            split_ifs <;> rfl
        · by_cases ht : b1 < 128
          · rw [loop_body_short h0 h1 hbs' hbs2 hn ht,
              @loop_body_short buf ⟨s.pos, s.buf_size, s.in_nested_mlme, none⟩ b0 b1 h0 h1
                hbs' hbs2 hn ht]
            simp only []
            by_cases c1 : b0 > s.buf_size - 2
            · rw [if_pos c1, if_pos c1]; exact Or.inr rfl
            · rw [if_neg c1, if_neg c1, parse_mlme_short_ie_null]
              rcases parse_mlme_short_ie_some_or_oob buf (s.pos + 2) ((b0 : Nat) : Int)
                b1 s.ies with hp | ⟨ies1, hp⟩
              · rw [hp]; exact Or.inl rfl
              · rw [hp]
                right
                simp only []
                split_ifs <;> rfl
          · rw [loop_body_long h0 h1 hbs' hbs2 hn (by omega),
              @loop_body_long buf ⟨s.pos, s.buf_size, s.in_nested_mlme, none⟩ b0 b1 h0 h1
                hbs' hbs2 hn (by omega)]
            simp only []
            by_cases c1 : (b0 + 256 * b1) % 2048 > s.buf_size - 2
            · rw [if_pos c1, if_pos c1]; exact Or.inr rfl
            · rw [if_neg c1, if_neg c1, parse_mlme_long_ie_null]
              rcases parse_mlme_long_ie_some_or_oob buf (s.pos + 2)
                (((b0 + 256 * b1) % 2048 : Nat) : Int) ((b0 + 256 * b1) / 2048 % 16) s.ies
                with hp | ⟨ies1, hp⟩
              · rw [hp]; exact Or.inl rfl
              · rw [hp]
                right
                simp only []
                split_ifs <;> rfl

/-- A run with a record either reads outside the buffer object or ends, the
record apart, as the run with NULL does. -/
theorem parse_loop_forget (buf : List Nat) :
    ∀ (fuel : Nat) (s : walk_state), s.buf_size < 256 →
      parse_loop fuel buf s = .oob ∨
      forget_record (parse_loop fuel buf s)
        = parse_loop fuel buf ⟨s.pos, s.buf_size, s.in_nested_mlme, none⟩ := by
  intro fuel
  induction fuel with
  | zero => intro s _; exact Or.inr rfl
  | succ k ih =>
    intro s hbs2
    by_cases hbs : 0 < s.buf_size
    · have hbsn : 0 < (walk_state.mk s.pos s.buf_size s.in_nested_mlme none).buf_size := hbs
      have hends := loop_body_ends buf s hbs2
      rcases loop_body_forget buf s hbs2 with hoob | hsame
      · exact Or.inl (parse_loop_done (Nat.succ_pos _) hbs hoob)
      · cases hb : loop_body buf s with
        | next s1 =>
          rw [hb] at hsame hends
          rw [parse_loop_next _ hbs hb, parse_loop_next _ hbsn hsame.symm]
          exact ih s1 hends.2.2
        | done o =>
          rw [hb] at hsame
          rw [parse_loop_done (Nat.succ_pos _) hbs hb,
            parse_loop_done (Nat.succ_pos _) hbsn hsame.symm]
          exact Or.inr rfl
    · right
      rw [parse_loop_exit buf (Nat.succ_pos _) (by omega),
        @parse_loop_exit buf ⟨s.pos, s.buf_size, s.in_nested_mlme, none⟩ _ (Nat.succ_pos _)
          (by simp only []; omega)]
      rfl

/-- C19: for every buffer, `buf_size` and present record, the call with the
record either reads outside the buffer object (undefined in C, and only where
the record is present, the payload bytes being read for the record alone) or
returns the very value that the call with NULL returns. -/
theorem validate_only_agrees_with_populate (buf : List Nat) (buf_size : Nat)
    (r : ieee802154_ies) :
    frame802154e_parse_information_elements buf buf_size (some r) = .oob ∨
    ∃ v ies1, frame802154e_parse_information_elements buf buf_size (some r) = .ret v ies1 ∧
      frame802154e_parse_information_elements buf buf_size none = .ret v none := by
  have hne := parse_information_elements_ends buf buf_size (some r)
  rcases parse_loop_forget buf (buf.length + 1) ⟨0, buf_size % 256, 0, some r⟩
    (Nat.mod_lt _ (by decide)) with h | h
  · exact Or.inl h
  · unfold frame802154e_parse_information_elements at hne ⊢
    cases hp : parse_loop (buf.length + 1) buf ⟨0, buf_size % 256, 0, some r⟩ with
    | ret v ies1 =>
      rw [hp] at h
      exact Or.inr ⟨v, ies1, rfl, h.symm⟩
    | oob => exact Or.inl rfl
    | nofuel => exact absurd hp hne

end Frame802154e

/-! # Orchestra: the statements -/

namespace Orchestra
open Frame802154e

/-! ## Slot of a sender -/

/-- C22: in the default configuration (`ORCHESTRA_SBUNICAST_PERIOD2` not
defined, period 17) the slot of sender index `i` is the slotframe `sf_sb`, the
timeslot `i mod 17`, which is below the period and is not truncated by the
8-bit output, and the channel offset 2; two indices get the same timeslot
exactly when they are congruent modulo 17. -/
theorem sb_slot_default_configuration (i j : Nat) :
    orhcestra_get_sb_slot false i = (.sf_sb, i % 17, 2) ∧
    i % 17 < ORCHESTRA_SBUNICAST_PERIOD ∧ i % 17 < 256 ∧
    ((orhcestra_get_sb_slot false i).2.1 = (orhcestra_get_sb_slot false j).2.1
      ↔ i % 17 = j % 17) := by
  have h : ∀ k : Nat, orhcestra_get_sb_slot false k = (.sf_sb, k % 17, 2) := by
    intro k
    unfold orhcestra_get_sb_slot ORCHESTRA_SBUNICAST_PERIOD
    simp only [Bool.false_eq_true, if_false, to_u8_cast]
    have : k % 17 % 256 = k % 17 := by omega
    rw [this]
  refine ⟨h i, ?_, by omega, ?_⟩
  · unfold ORCHESTRA_SBUNICAST_PERIOD; omega
  · rw [h i, h j]

/-! ## Sweep of old links -/

/-- Bits of `x & ~m` for 32-bit operands: the bits of `x` that are not bits
of `m`. -/
theorem and_not_testBit (x m i : Nat) (hx : x < 4294967296) (hm : m < 4294967296) :
    (and_not x m).testBit i = (x.testBit i && !m.testBit i) := by
  have hbits : int_bits (-(m : Int) - 1) = 2 ^ 32 - (m + 1) := by
    unfold int_bits
    norm_num
    omega
  unfold and_not
  rw [hbits, Nat.testBit_and, Nat.testBit_two_pow_sub_succ (by norm_num; omega)]
  by_cases hi : i < 32
  · simp [hi]
  · have : x.testBit i = false :=
      testBit_false_of_lt_of_le (by norm_num; omega : x < 2 ^ 32) (by omega)
    simp [hi, this]

/-- The call made for a link with metadata, case by case. -/
theorem delete_old_links_cases (c : config) (asn : Nat) (l : tsch_link) (ts : link_timestamps)
    (hd : l.data = some ts) :
    orchestra_delete_old_links_sf c asn l =
      if tx_stale c asn ts ∧ rx_stale c asn ts then .remove_link_and_free
      else if tx_stale c asn ts ∧ ¬ rx_stale c asn ts ∧ l.link_options &&& c.LINK_OPTION_TX ≠ 0
      then .add_link (and_not l.link_options (c.LINK_OPTION_TX ||| c.LINK_OPTION_SHARED))
        linkaddr_null l.timeslot l.channel_offset
      else if rx_stale c asn ts ∧ ¬ tx_stale c asn ts ∧ l.link_options &&& c.LINK_OPTION_RX ≠ 0
      then .add_link (and_not l.link_options c.LINK_OPTION_RX) l.addr l.timeslot
        l.channel_offset
      else .nothing := by
  unfold orchestra_delete_old_links_sf tx_stale rx_stale
  rw [hd]
  simp only []
  by_cases h1 : sub_u32 asn ts.last_tx > c.DEDICATED_SLOT_LIFETIME <;>
    by_cases h2 : sub_u32 asn ts.last_rx > c.DEDICATED_SLOT_LIFETIME <;>
    by_cases h3 : l.link_options &&& c.LINK_OPTION_TX = 0 <;>
    by_cases h4 : l.link_options &&& c.LINK_OPTION_RX = 0 <;>
    simp [h1, h2, h3, h4]

/-- C21, counterexample: with the flag values 1 (TX), 2 (RX), 4 (SHARED), a
link whose options are TX and SHARED (5) and whose transmit direction alone is
stale is replaced by a link with options 0: the SHARED flag is cleared along
with the TX flag, whereas clearing the TX flag only would leave 4. -/
theorem tx_downgrade_clears_shared :
    orchestra_delete_old_links_sf ⟨1, 2, 4, 8000⟩ 10000 ⟨5, 77, 3, 2, some ⟨1000, 9000⟩⟩
      = .add_link 0 0 3 2 ∧
    and_not 5 1 = 4 := by
  decide

/-- C21, amended: for a link with timestamp metadata the body of the loop
removes the link and frees the metadata if and only if both directions are
stale; when the transmit direction alone is stale and the link has the TX
flag, it adds at the same timeslot and channel offset a link with the null
address whose options are the old ones with the TX and SHARED flags cleared;
when the receive direction alone is stale and the link has the RX flag, it
adds at the same timeslot and channel offset a link with the same address
whose options are the old ones with the RX flag cleared; otherwise it makes
no call. -/
theorem sweep_decision (c : config) (asn : Nat) (l : tsch_link) (ts : link_timestamps)
    (hd : l.data = some ts) (hopt : l.link_options < 256)
    (htx : c.LINK_OPTION_TX < 256) (hrx : c.LINK_OPTION_RX < 256)
    (hsh : c.LINK_OPTION_SHARED < 256) :
    (orchestra_delete_old_links_sf c asn l = .remove_link_and_free
      ↔ tx_stale c asn ts ∧ rx_stale c asn ts) ∧
    (tx_stale c asn ts ∧ ¬ rx_stale c asn ts ∧ l.link_options &&& c.LINK_OPTION_TX ≠ 0 →
      orchestra_delete_old_links_sf c asn l
        = .add_link (and_not l.link_options (c.LINK_OPTION_TX ||| c.LINK_OPTION_SHARED))
            linkaddr_null l.timeslot l.channel_offset) ∧
    (rx_stale c asn ts ∧ ¬ tx_stale c asn ts ∧ l.link_options &&& c.LINK_OPTION_RX ≠ 0 →
      orchestra_delete_old_links_sf c asn l
        = .add_link (and_not l.link_options c.LINK_OPTION_RX) l.addr l.timeslot
            l.channel_offset) ∧
    (¬ (tx_stale c asn ts ∧ rx_stale c asn ts) →
      ¬ (tx_stale c asn ts ∧ ¬ rx_stale c asn ts ∧ l.link_options &&& c.LINK_OPTION_TX ≠ 0) →
      ¬ (rx_stale c asn ts ∧ ¬ tx_stale c asn ts ∧ l.link_options &&& c.LINK_OPTION_RX ≠ 0) →
      orchestra_delete_old_links_sf c asn l = .nothing) ∧
    (∀ i, (and_not l.link_options (c.LINK_OPTION_TX ||| c.LINK_OPTION_SHARED)).testBit i
      = (l.link_options.testBit i &&
          !(c.LINK_OPTION_TX.testBit i || c.LINK_OPTION_SHARED.testBit i))) ∧
    (∀ i, (and_not l.link_options c.LINK_OPTION_RX).testBit i
      = (l.link_options.testBit i && !c.LINK_OPTION_RX.testBit i)) := by
  have hcases := delete_old_links_cases c asn l ts hd
  refine ⟨?_, ?_, ?_, ?_, ?_, ?_⟩
  · rw [hcases]
    constructor
    · intro h
      by_contra hb
      rw [if_neg hb] at h
      split_ifs at h
    · intro hb
      rw [if_pos hb]
  · intro h
    rw [hcases, if_neg (fun hb => h.2.1 hb.2), if_pos h]
  · intro h
    rw [hcases, if_neg (fun hb => h.2.1 hb.1), if_neg (fun hb => h.2.1 hb.1), if_pos h]
  · intro h1 h2 h3
    rw [hcases, if_neg h1, if_neg h2, if_neg h3]
  · intro i
    have hor : c.LINK_OPTION_TX ||| c.LINK_OPTION_SHARED < 2 ^ 8 :=
      Nat.or_lt_two_pow (by norm_num; omega) (by norm_num; omega)
    rw [and_not_testBit _ _ _ (by omega) (by norm_num at hor; omega), Nat.testBit_or]
  · intro i
    rw [and_not_testBit _ _ _ (by omega) (by omega)]

theorem sweep_decision_witness :
    orchestra_delete_old_links_sf ⟨1, 2, 4, 8000⟩ 10000 ⟨7, 77, 3, 2, some ⟨9000, 1000⟩⟩
      = .add_link (and_not 7 2) 77 3 2 :=
  (sweep_decision ⟨1, 2, 4, 8000⟩ 10000 ⟨7, 77, 3, 2, some ⟨9000, 1000⟩⟩ ⟨9000, 1000⟩ rfl
    (by decide) (by decide) (by decide) (by decide)).2.2.1
    ⟨by unfold rx_stale; decide, by unfold tx_stale; decide, by decide⟩

end Orchestra
